import Mathlib

/-!
Verification of the NFC tag protocol engine (SRIX4K and Mifare Classic 1K/4K
acquisition/rewriting firmware).

The development shallowly embeds the engine code:

* MifareTool (src/modules/rfid/mifare_tool.cpp): sector/block addressing,
  the per-sector authentication cascade, full and single-block writes, the
  sector-trailer key reconstruction performed during reads, and the
  Flipper-compatible .mfc dump codec.
* SRIXTool (src/modules/rfid/srix_tool.cpp): the full-tag write loop with
  its re-detection requirement, and the .srix dump codec.
* NFCManager (src/modules/rfid/nfc_manager.cpp): the coordinator layer that
  fills the protocol-agnostic TagInfo record and maps engine return codes
  into the uniform Result type, plus the selective batch write loops.

Hardware interaction is modelled by explicit oracles (structures of
functions giving the outcome of each authentication, detection, block read
and block write), and every hardware call is recorded in an event trace so
that claims of the form "no hardware call is performed" are provable.
Bytes are natural numbers, constrained to be below 256 by hypotheses where
it matters.  Files are modelled as lists of lines, each line a list of
characters, matching the line-oriented readStringUntil / println access in
the source.
-/

namespace NfcEngine

/-! ## Mifare sector/block addressing (mifare_tool.cpp lines 1169-1181, 757-761) -/

/-- Card specification constants from mifare_tool.h. -/
def BLOCKS_PER_SMALL_SECTOR : Nat := 4

def BLOCKS_PER_LARGE_SECTOR : Nat := 16

def SMALL_SECTOR_COUNT : Nat := 32

def LARGE_SECTOR_BOUNDARY : Nat := 128

def MIFARE_1K_SECTORS : Nat := 16

def MIFARE_4K_SECTORS : Nat := 40

def MIFARE_1K_BLOCKS : Nat := 64

def MIFARE_4K_BLOCKS : Nat := 256

def MIFARE_BLOCK_SIZE : Nat := 16

/-- MifareTool::getFirstBlockOfSector, mifare_tool.cpp lines 1169-1177. -/
def getFirstBlockOfSector (sector : Nat) : Nat :=
  if sector < SMALL_SECTOR_COUNT then
    sector * BLOCKS_PER_SMALL_SECTOR
  else
    LARGE_SECTOR_BOUNDARY + (sector - SMALL_SECTOR_COUNT) * BLOCKS_PER_LARGE_SECTOR

/-- MifareTool::getBlockCountInSector, mifare_tool.cpp lines 1179-1181. -/
def getBlockCountInSector (sector : Nat) : Nat :=
  if sector < SMALL_SECTOR_COUNT then BLOCKS_PER_SMALL_SECTOR else BLOCKS_PER_LARGE_SECTOR

/-- The sector-of-block formula used at mifare_tool.cpp lines 213-215 and 759-761. -/
def sectorOfBlock (block : Nat) : Nat :=
  if block < LARGE_SECTOR_BOUNDARY then
    block / BLOCKS_PER_SMALL_SECTOR
  else
    SMALL_SECTOR_COUNT + (block - LARGE_SECTOR_BOUNDARY) / BLOCKS_PER_LARGE_SECTOR

/-- The trailer (last) block of a sector. -/
def trailerOfSector (sector : Nat) : Nat :=
  getFirstBlockOfSector sector + (getBlockCountInSector sector - 1)

/-- A block is protected from single/selective writes when it is block 0 (the
UID block) or the trailer block of its own sector; cf. mifare_tool.cpp
lines 207-225. -/
def isProtectedBlock (block : Nat) : Bool :=
  block == 0 || block == trailerOfSector (sectorOfBlock block)

end NfcEngine

namespace NfcEngine

/-- C4: for every block b in [0, total_blocks) of a Mifare card (total_blocks
is at most 256, the 4K size), the sector computed for b contains b:
firstBlockOfSector(sectorOf b) <= b < firstBlockOfSector(sectorOf b) +
blockCountOfSector(sectorOf b); moreover sectors 0-31 have 4 blocks starting
at 4*s (blocks 0-127) and sectors 32-39 have 16 blocks starting at
128+16*(s-32) (blocks 128-255), all as pure functions of the sector number. -/
theorem addressing_bijection (b : Nat) (hb : b < MIFARE_4K_BLOCKS) :
    getFirstBlockOfSector (sectorOfBlock b) ≤ b ∧
    b < getFirstBlockOfSector (sectorOfBlock b) + getBlockCountInSector (sectorOfBlock b) ∧
    (∀ s : Nat, s < 32 → getFirstBlockOfSector s = 4 * s ∧ getBlockCountInSector s = 4) ∧
    (∀ s : Nat, 32 ≤ s → s < 40 →
      getFirstBlockOfSector s = 128 + 16 * (s - 32) ∧ getBlockCountInSector s = 16) := by
  refine ⟨?_, ?_, ?_, ?_⟩
  · unfold getFirstBlockOfSector sectorOfBlock
    unfold BLOCKS_PER_SMALL_SECTOR BLOCKS_PER_LARGE_SECTOR SMALL_SECTOR_COUNT
      LARGE_SECTOR_BOUNDARY
    split
    · split
      · omega
      · omega
    · split
      · omega
      · omega
  · unfold getFirstBlockOfSector getBlockCountInSector sectorOfBlock
    unfold BLOCKS_PER_SMALL_SECTOR BLOCKS_PER_LARGE_SECTOR SMALL_SECTOR_COUNT
      LARGE_SECTOR_BOUNDARY
    split
    · split
      · omega
      · omega
    · split
      · omega
      · omega
  · intro s hs
    unfold getFirstBlockOfSector getBlockCountInSector
    unfold BLOCKS_PER_SMALL_SECTOR SMALL_SECTOR_COUNT
    rw [if_pos hs, if_pos hs]
    omega
  · intro s hs1 hs2
    unfold getFirstBlockOfSector getBlockCountInSector
    unfold BLOCKS_PER_SMALL_SECTOR BLOCKS_PER_LARGE_SECTOR SMALL_SECTOR_COUNT
      LARGE_SECTOR_BOUNDARY
    rw [if_neg (by omega), if_neg (by omega)]
    omega

/-- Witness for addressing_bijection at the concrete block 130 (a 4K large
sector block). -/
theorem addressing_bijection_witness :
    (130 : Nat) < MIFARE_4K_BLOCKS ∧
    (getFirstBlockOfSector (sectorOfBlock 130) ≤ 130 ∧
      130 < getFirstBlockOfSector (sectorOfBlock 130) +
        getBlockCountInSector (sectorOfBlock 130) ∧
      (∀ s : Nat, s < 32 → getFirstBlockOfSector s = 4 * s ∧ getBlockCountInSector s = 4) ∧
      (∀ s : Nat, 32 ≤ s → s < 40 →
        getFirstBlockOfSector s = 128 + 16 * (s - 32) ∧ getBlockCountInSector s = 16)) :=
  ⟨by decide, addressing_bijection 130 (by decide)⟩

/-! ## Mifare write engine (mifare_tool.cpp lines 144-249, 642-854)

Hardware is an oracle; every call to the PN532 transport is recorded as an
event.  detectCard (a polling loop around readPassiveTargetID plus card-type
identification) is abstracted to one Boolean outcome together with the type
the physical card identifies as; the partial state mutation a failed
re-selection can leave behind is not modelled, since every claim either
returns before detection or is conditioned on successful detection. -/

/-- MifareTool return codes (mifare_tool.h lines 65-73). -/
def SUCCESS : Int := 0

def ERROR_NO_TAG : Int := -1

def ERROR_AUTH_FAILED : Int := -2

def ERROR_READ_FAILED : Int := -3

def ERROR_WRITE_FAILED : Int := -4

def ERROR_FILE_ERROR : Int := -5

def ERROR_INVALID_DATA : Int := -6

/-- Mifare card types (mifare_tool.h lines 56-60). -/
inductive CardType where
  | unknown
  | mifare1K
  | mifare4K
deriving DecidableEq, Repr

/-- MifareTool::getSectorCount (mifare_tool.cpp lines 1165-1167). -/
def getSectorCount (t : CardType) : Nat :=
  if t = CardType.mifare1K then MIFARE_1K_SECTORS else MIFARE_4K_SECTORS

/-- Total block count assigned by detectCard (mifare_tool.cpp line 418). -/
def totalBlocksOf (t : CardType) : Nat :=
  if t = CardType.mifare1K then MIFARE_1K_BLOCKS else MIFARE_4K_BLOCKS

/-- One recorded interaction with the PN532 transport. -/
inductive HWEvent where
  | detect
  | reactivate
  | auth (block : Nat) (keyA : Bool) (key : List Nat)
  | write (block : Nat)
deriving DecidableEq, Repr

/-- Per-sector key cache entry (mifare_tool.h lines 339-344). -/
structure SectorKeys where
  key_a : List Nat
  key_b : List Nat
  key_a_valid : Bool
  key_b_valid : Bool
deriving DecidableEq, Repr

/-- The MifareTool instance state relevant to the embedded operations.
The dump buffer is byte-addressed; the UID buffer holds uid_length bytes. -/
@[ext]
structure MifareState where
  dump_valid : Bool
  card_type : CardType
  total_blocks : Nat
  blocks_read : Nat
  uid_length : Nat
  uid : Nat → Nat
  sak : Nat
  atqa0 : Nat
  atqa1 : Nat
  dump : Nat → Nat
  sector_keys : Nat → SectorKeys

/-- Hardware oracle: outcome of each transport primitive, plus the key
database held by MifareKeysManager (keys already converted to 6-byte
values, as keyToBytes does). -/
structure MifareEnv where
  detect : Bool
  identify4K : Bool
  auth : Nat → Bool → List Nat → Bool
  readBlock : Nat → Option (List Nat)
  writeOk : Nat → Bool
  keys : List (List Nat)
  timedOutAfterSector : Nat → Bool

/-- The card type identifyCardType reports: 4K when the block-64 default-key
authentication succeeds, 1K otherwise (mifare_tool.cpp lines 433-445). -/
def detectedType (env : MifareEnv) : CardType :=
  if env.identify4K then CardType.mifare4K else CardType.mifare1K

/-- State mutation performed by a successful detectCard
(mifare_tool.cpp lines 370-427): card type and total blocks follow the
physical card. -/
def stateAfterDetect (st : MifareState) (env : MifareEnv) : MifareState :=
  { st with card_type := detectedType env,
            total_blocks := totalBlocksOf (detectedType env) }

/-- Database scan with one key type: try each key in order; each failed
authentication is followed by a card re-activation
(mifare_tool.cpp lines 689-715, 806-832). -/
def scanKeys (env : MifareEnv) (first_block : Nat) (keyA : Bool) :
    List (List Nat) → Bool × List HWEvent
  | [] => (false, [])
  | k :: rest =>
    if env.auth first_block keyA k then (true, [HWEvent.auth first_block keyA k])
    else
      let r := scanKeys env first_block keyA rest
      (r.1, HWEvent.auth first_block keyA k :: HWEvent.reactivate :: r.2)

/-- The write-side authentication cascade of writeSector and
writeSingleBlock (mifare_tool.cpp lines 650-721 and 769-837): saved Key A,
saved Key B, then a full database scan with Key A and with Key B. -/
def writeAuthCascade (st : MifareState) (env : MifareEnv) (sector first_block : Nat) :
    Bool × List HWEvent :=
  let sk := st.sector_keys sector
  let stepA : Bool × List HWEvent :=
    if sk.key_a_valid then
      if env.auth first_block true sk.key_a then
        (true, [HWEvent.auth first_block true sk.key_a])
      else (false, [HWEvent.auth first_block true sk.key_a, HWEvent.reactivate])
    else (false, [])
  if stepA.1 then stepA
  else
    let stepB : Bool × List HWEvent :=
      if sk.key_b_valid then
        if env.auth first_block false sk.key_b then
          (true, [HWEvent.auth first_block false sk.key_b])
        else (false, [HWEvent.auth first_block false sk.key_b, HWEvent.reactivate])
      else (false, [])
    if stepB.1 then (true, stepA.2 ++ stepB.2)
    else
      let scanA := scanKeys env first_block true env.keys
      if scanA.1 then (true, stepA.2 ++ stepB.2 ++ scanA.2)
      else
        let scanB := scanKeys env first_block false env.keys
        (scanB.1, stepA.2 ++ stepB.2 ++ scanA.2 ++ scanB.2)

/-- MifareTool::writeSingleBlock (mifare_tool.cpp lines 757-854): cascade
against the first block of the sector of the target block, then one block
write. -/
def writeSingleBlock (st : MifareState) (env : MifareEnv) (block : Nat) :
    Int × List HWEvent :=
  let sector := sectorOfBlock block
  let first_block := getFirstBlockOfSector sector
  let casc := writeAuthCascade st env sector first_block
  if casc.1 then
    if env.writeOk block then (SUCCESS, casc.2 ++ [HWEvent.write block])
    else (ERROR_WRITE_FAILED, casc.2 ++ [HWEvent.write block])
  else (ERROR_AUTH_FAILED, casc.2)

/-- MifareTool::write_single_block_headless (mifare_tool.cpp lines 194-249):
validation (dump loaded, block in range, not block 0, not a sector
trailer), then card detection, then the single-block write. -/
def write_single_block_headless (st : MifareState) (env : MifareEnv) (block : Int) :
    Int × MifareState × List HWEvent :=
  if st.dump_valid = false then (ERROR_INVALID_DATA, st, [])
  else if block < 0 ∨ (st.total_blocks : Int) ≤ block then (ERROR_INVALID_DATA, st, [])
  else if block.toNat = 0 then (ERROR_INVALID_DATA, st, [])
  else if block.toNat = trailerOfSector (sectorOfBlock block.toNat) then
    (ERROR_INVALID_DATA, st, [])
  else if env.detect = false then (ERROR_NO_TAG, st, [HWEvent.detect])
  else
    ((writeSingleBlock (stateAfterDetect st env) env block.toNat).1,
     stateAfterDetect st env,
     HWEvent.detect :: (writeSingleBlock (stateAfterDetect st env) env block.toNat).2)

/-- The uniform coordinator result type (nfc_manager.h lines 103-107). -/
structure CResult where
  success : Bool
  message : String
  code : Int
deriving DecidableEq, Repr

/-- The per-block loop of NFCManager::writeMifareBlocksSelective
(nfc_manager.cpp lines 937-976): block numbers of 64 or more are skipped,
each other block goes through write_single_block_headless, and the first
failure aborts the batch. -/
def writeMifareBlocksSelectiveLoop (env : MifareEnv) :
    MifareState → List Nat → Nat → CResult × MifareState × List HWEvent
  | st, [], written =>
    ({ success := true,
       message := "Successfully wrote " ++ toString written ++ " blocks",
       code := 0 }, st, [])
  | st, b :: rest, written =>
    if 64 ≤ b then writeMifareBlocksSelectiveLoop env st rest written
    else if (write_single_block_headless st env (b : Int)).1 = SUCCESS then
      ((writeMifareBlocksSelectiveLoop env
          (write_single_block_headless st env (b : Int)).2.1 rest (written + 1)).1,
       (writeMifareBlocksSelectiveLoop env
          (write_single_block_headless st env (b : Int)).2.1 rest (written + 1)).2.1,
       (write_single_block_headless st env (b : Int)).2.2 ++
         (writeMifareBlocksSelectiveLoop env
            (write_single_block_headless st env (b : Int)).2.1 rest (written + 1)).2.2)
    else
      ({ success := false,
         message := "Failed at block " ++ toString b ++ " (code=" ++
           toString (write_single_block_headless st env (b : Int)).1 ++ ")",
         code := (write_single_block_headless st env (b : Int)).1 },
       (write_single_block_headless st env (b : Int)).2.1,
       (write_single_block_headless st env (b : Int)).2.2)

/-- NFCManager::writeMifareBlocksSelective (nfc_manager.cpp lines 911-976).
hasValidData is the coordinator flag current_tag.valid. -/
def writeMifareBlocksSelective (st : MifareState) (env : MifareEnv)
    (hasValidData : Bool) (blocks : List Nat) : CResult × MifareState × List HWEvent :=
  if blocks = [] then
    ({ success := false, message := "No blocks specified", code := -3 }, st, [])
  else if hasValidData = false then
    ({ success := false, message := "No loaded data to write from", code := -2 }, st, [])
  else
    writeMifareBlocksSelectiveLoop env st blocks 0

/-- A sample engine state with a valid 1K dump loaded, used by concrete
witnesses. -/
def sampleState : MifareState :=
  { dump_valid := true
    card_type := CardType.mifare1K
    total_blocks := 64
    blocks_read := 64
    uid_length := 4
    uid := fun _ => 0
    sak := 8
    atqa0 := 4
    atqa1 := 0
    dump := fun _ => 0
    sector_keys := fun _ => { key_a := [0, 0, 0, 0, 0, 0], key_b := [0, 0, 0, 0, 0, 0],
                              key_a_valid := false, key_b_valid := false } }

/-- A sample hardware oracle on which every authentication fails and the key
database is empty, used by concrete witnesses. -/
def sampleEnv : MifareEnv :=
  { detect := true
    identify4K := false
    auth := fun _ _ _ => false
    readBlock := fun _ => none
    writeOk := fun _ => false
    keys := []
    timedOutAfterSector := fun _ => false }

/-- Unfolding equation for the selective-write loop on a non-empty batch. -/
theorem selectiveLoop_cons (env : MifareEnv) (st : MifareState) (b : Nat)
    (rest : List Nat) (written : Nat) :
    writeMifareBlocksSelectiveLoop env st (b :: rest) written =
      if 64 ≤ b then writeMifareBlocksSelectiveLoop env st rest written
      else if (write_single_block_headless st env (b : Int)).1 = SUCCESS then
        ((writeMifareBlocksSelectiveLoop env
            (write_single_block_headless st env (b : Int)).2.1 rest (written + 1)).1,
         (writeMifareBlocksSelectiveLoop env
            (write_single_block_headless st env (b : Int)).2.1 rest (written + 1)).2.1,
         (write_single_block_headless st env (b : Int)).2.2 ++
           (writeMifareBlocksSelectiveLoop env
              (write_single_block_headless st env (b : Int)).2.1 rest (written + 1)).2.2)
      else
        ({ success := false,
           message := "Failed at block " ++ toString b ++ " (code=" ++
             toString (write_single_block_headless st env (b : Int)).1 ++ ")",
           code := (write_single_block_headless st env (b : Int)).1 },
         (write_single_block_headless st env (b : Int)).2.1,
         (write_single_block_headless st env (b : Int)).2.2) := rfl

/-- Unfolding equation for the selective-write loop on the exhausted batch. -/
theorem selectiveLoop_nil (env : MifareEnv) (st : MifareState) (written : Nat) :
    writeMifareBlocksSelectiveLoop env st [] written =
      ({ success := true,
         message := "Successfully wrote " ++ toString written ++ " blocks",
         code := 0 }, st, []) := rfl

/-- C1: a Mifare selective/single block write request targeting block 0 or a
sector-trailer block returns ERROR_INVALID_DATA with an empty hardware
trace (no detection, authentication or write is attempted), and in a batch
selective write whose first listed block is such a protected block the
whole batch fails at that block with the same code, empty hardware trace
and unchanged state, so the remaining listed blocks are never attempted. -/
theorem protected_block_write_rejected (st : MifareState) (env : MifareEnv)
    (b : Nat) (rest : List Nat) (hprot : isProtectedBlock b = true) (hb : b < 64) :
    write_single_block_headless st env (b : Int) = (ERROR_INVALID_DATA, st, []) ∧
    writeMifareBlocksSelective st env true (b :: rest) =
      ({ success := false,
         message := "Failed at block " ++ toString b ++ " (code=" ++
           toString ERROR_INVALID_DATA ++ ")",
         code := ERROR_INVALID_DATA }, st, []) := by
  have hp : b = 0 ∨ b = trailerOfSector (sectorOfBlock b) := by
    unfold isProtectedBlock at hprot
    simpa using hprot
  have hbn : ((b : Int)).toNat = b := Int.toNat_natCast b
  have h1 : write_single_block_headless st env (b : Int) = (ERROR_INVALID_DATA, st, []) := by
    unfold write_single_block_headless
    by_cases hdv : st.dump_valid = false
    · rw [if_pos hdv]
    · rw [if_neg hdv]
      by_cases hrange : ((b : Int) < 0 ∨ (st.total_blocks : Int) ≤ (b : Int))
      · rw [if_pos hrange]
      · rw [if_neg hrange]
        rcases hp with h0 | htr
        · rw [if_pos (by rw [hbn, h0])]
        · by_cases h0 : b = 0
          · rw [if_pos (by rw [hbn, h0])]
          · rw [if_neg (by rw [hbn]; exact h0), if_pos (by rw [hbn]; exact htr)]
  have hne1 : ¬(write_single_block_headless st env (b : Int)).1 = SUCCESS := by
    rw [h1]
    unfold ERROR_INVALID_DATA SUCCESS
    norm_num
  refine ⟨h1, ?_⟩
  unfold writeMifareBlocksSelective
  rw [if_neg (by simp), if_neg (by simp)]
  rw [selectiveLoop_cons, if_neg (by omega), if_neg hne1, h1]

/-- Witness for protected_block_write_rejected: the batch [0, 5, 7] on a
loaded 1K dump is rejected at block 0 with no hardware interaction. -/
theorem protected_block_write_rejected_witness :
    isProtectedBlock 0 = true ∧ 0 < 64 ∧
    (write_single_block_headless sampleState sampleEnv ((0 : Nat) : Int) =
        (ERROR_INVALID_DATA, sampleState, []) ∧
      writeMifareBlocksSelective sampleState sampleEnv true (0 :: [5, 7]) =
        ({ success := false,
           message := "Failed at block " ++ toString (0 : Nat) ++ " (code=" ++
             toString ERROR_INVALID_DATA ++ ")",
           code := ERROR_INVALID_DATA }, sampleState, [])) :=
  ⟨by decide, by decide,
    protected_block_write_rejected sampleState sampleEnv 0 [5, 7] (by decide) (by decide)⟩

/-- C10: in a Mifare selective batch write, every requested block number of
64 or more is silently skipped: the loop behaves exactly as if those
blocks were filtered out of the request (so they are never attempted on
hardware, never counted, and never fail the batch, whatever the loaded
dump), and a non-empty batch consisting only of such blocks reports
success with zero blocks written, untouched state and empty hardware
trace. -/
theorem selective_write_skips_blocks_ge_64 (st : MifareState) (env : MifareEnv)
    (blocks : List Nat) (hne : blocks ≠ []) (hall : ∀ x ∈ blocks, 64 ≤ x) :
    writeMifareBlocksSelective st env true blocks =
      ({ success := true, message := "Successfully wrote 0 blocks", code := 0 }, st, []) ∧
    ∀ (st2 : MifareState) (env2 : MifareEnv) (blocks2 : List Nat) (written : Nat),
      writeMifareBlocksSelectiveLoop env2 st2 blocks2 written =
        writeMifareBlocksSelectiveLoop env2 st2 (blocks2.filter (fun x => x < 64)) written := by
  have hfilter : ∀ (st2 : MifareState) (env2 : MifareEnv) (blocks2 : List Nat) (written : Nat),
      writeMifareBlocksSelectiveLoop env2 st2 blocks2 written =
        writeMifareBlocksSelectiveLoop env2 st2 (blocks2.filter (fun x => x < 64)) written := by
    intro st2 env2 blocks2
    induction blocks2 generalizing st2 with
    | nil => intro written; rfl
    | cons b rest ih =>
      intro written
      by_cases hb : 64 ≤ b
      · have hdb : decide (b < 64) = false := by simp; omega
        rw [List.filter_cons, hdb, if_neg (by simp)]
        rw [selectiveLoop_cons, if_pos hb]
        exact ih st2 written
      · have hdb : decide (b < 64) = true := by simp; omega
        rw [List.filter_cons, hdb, if_pos rfl]
        rw [selectiveLoop_cons, selectiveLoop_cons env2 st2 b (rest.filter (fun x => x < 64))]
        rw [if_neg hb, if_neg hb]
        by_cases hres : (write_single_block_headless st2 env2 (b : Int)).1 = SUCCESS
        · rw [if_pos hres, if_pos hres,
            ih (write_single_block_headless st2 env2 (b : Int)).2.1 (written + 1)]
        · rw [if_neg hres, if_neg hres]
  refine ⟨?_, hfilter⟩
  unfold writeMifareBlocksSelective
  rw [if_neg hne, if_neg (by simp)]
  rw [hfilter st env blocks 0]
  have hnil : blocks.filter (fun x => x < 64) = [] := by
    rw [List.filter_eq_nil_iff]
    intro a ha
    simp only [decide_eq_true_eq, not_lt]
    exact hall a ha
  rw [hnil, selectiveLoop_nil]
  rfl

/-! ## Mifare full-tag write (mifare_tool.cpp lines 144-192 and 642-755) -/

/-- The block loop of MifareTool::writeSector (mifare_tool.cpp lines
726-752) over a list of block offsets inside the sector: the UID block
(sector 0, offset 0) and the sector trailer (last offset) are skipped, and
the first failed hardware write aborts the loop. -/
def writeSectorBlocks (env : MifareEnv) (sector first_block block_count : Nat) :
    List Nat → Int × List HWEvent
  | [] => (SUCCESS, [])
  | off :: rest =>
    if sector = 0 ∧ off = 0 then writeSectorBlocks env sector first_block block_count rest
    else if off = block_count - 1 then writeSectorBlocks env sector first_block block_count rest
    else if env.writeOk (first_block + off) then
      ((writeSectorBlocks env sector first_block block_count rest).1,
       HWEvent.write (first_block + off) ::
         (writeSectorBlocks env sector first_block block_count rest).2)
    else (ERROR_WRITE_FAILED, [HWEvent.write (first_block + off)])

/-- MifareTool::writeSector (mifare_tool.cpp lines 642-755): the write-side
authentication cascade, then the block loop over all offsets of the
sector. -/
def writeSector (st : MifareState) (env : MifareEnv) (sector : Nat) : Int × List HWEvent :=
  if (writeAuthCascade st env sector (getFirstBlockOfSector sector)).1 then
    ((writeSectorBlocks env sector (getFirstBlockOfSector sector)
        (getBlockCountInSector sector) (List.range (getBlockCountInSector sector))).1,
     (writeAuthCascade st env sector (getFirstBlockOfSector sector)).2 ++
       (writeSectorBlocks env sector (getFirstBlockOfSector sector)
          (getBlockCountInSector sector) (List.range (getBlockCountInSector sector))).2)
  else (ERROR_AUTH_FAILED, (writeAuthCascade st env sector (getFirstBlockOfSector sector)).2)

/-- The sector loop of write_tag_headless (mifare_tool.cpp lines 174-188)
over an explicit list of sector numbers: the first sector whose write does
not return SUCCESS aborts the loop with that error code, and after each
successful sector the overall timeout is checked. -/
def writeSectorsList (st : MifareState) (env : MifareEnv) : List Nat → Int × List HWEvent
  | [] => (SUCCESS, [])
  | s :: rest =>
    if (writeSector st env s).1 ≠ SUCCESS then writeSector st env s
    else if env.timedOutAfterSector s then (ERROR_NO_TAG, (writeSector st env s).2)
    else ((writeSectorsList st env rest).1,
          (writeSector st env s).2 ++ (writeSectorsList st env rest).2)

/-- The concatenated hardware traces of a list of (successful) sector
writes. -/
def sectorTraces (st : MifareState) (env : MifareEnv) : List Nat → List HWEvent
  | [] => []
  | s :: rest => (writeSector st env s).2 ++ sectorTraces st env rest

/-- MifareTool::write_tag_headless (mifare_tool.cpp lines 144-192): dump
check, card detection, card-type verification, then the per-sector write
loop over all sectors of the detected card type. -/
def write_tag_headless (st : MifareState) (env : MifareEnv) : Int × MifareState × List HWEvent :=
  if st.dump_valid = false then (ERROR_INVALID_DATA, st, [])
  else if env.detect = false then (ERROR_NO_TAG, st, [HWEvent.detect])
  else if detectedType env ≠ (stateAfterDetect st env).card_type then
    (ERROR_INVALID_DATA, stateAfterDetect st env, [HWEvent.detect])
  else
    ((writeSectorsList (stateAfterDetect st env) env
        (List.range (getSectorCount (stateAfterDetect st env).card_type))).1,
     stateAfterDetect st env,
     HWEvent.detect ::
       (writeSectorsList (stateAfterDetect st env) env
          (List.range (getSectorCount (stateAfterDetect st env).card_type))).2)

/-- A key-database scan performs no block write. -/
theorem scanKeys_no_write (env : MifareEnv) (first_block : Nat) (keyA : Bool)
    (ks : List (List Nat)) (b : Nat) :
    HWEvent.write b ∉ (scanKeys env first_block keyA ks).2 := by
  induction ks with
  | nil => simp [scanKeys]
  | cons k rest ih =>
    unfold scanKeys
    by_cases h : env.auth first_block keyA k
    · simp [h]
    · simp [h]
      exact ih

/-- The write-side authentication cascade performs no block write. -/
theorem writeAuthCascade_no_write (st : MifareState) (env : MifareEnv)
    (sector first_block : Nat) (b : Nat) :
    HWEvent.write b ∉ (writeAuthCascade st env sector first_block).2 := by
  unfold writeAuthCascade
  have hA := scanKeys_no_write env first_block true env.keys b
  have hB := scanKeys_no_write env first_block false env.keys b
  by_cases hav : (st.sector_keys sector).key_a_valid <;>
    by_cases haa : env.auth first_block true (st.sector_keys sector).key_a <;>
    by_cases hbv : (st.sector_keys sector).key_b_valid <;>
    by_cases hba : env.auth first_block false (st.sector_keys sector).key_b <;>
    by_cases hsa : (scanKeys env first_block true env.keys).1 <;>
    simp_all [List.mem_append]

/-- Every block write emitted by the sector block loop is at a
non-skipped offset of the sector. -/
theorem writeSectorBlocks_write_shape (env : MifareEnv)
    (sector first_block block_count : Nat) (l : List Nat) (b : Nat)
    (hmem : HWEvent.write b ∈ (writeSectorBlocks env sector first_block block_count l).2) :
    ∃ off ∈ l, b = first_block + off ∧ ¬(sector = 0 ∧ off = 0) ∧ off ≠ block_count - 1 := by
  induction l with
  | nil => simp [writeSectorBlocks] at hmem
  | cons off rest ih =>
    unfold writeSectorBlocks at hmem
    by_cases h0 : sector = 0 ∧ off = 0
    · rw [if_pos h0] at hmem
      obtain ⟨o, ho, hrest⟩ := ih hmem
      exact ⟨o, by simp [ho], hrest⟩
    · rw [if_neg h0] at hmem
      by_cases htr : off = block_count - 1
      · rw [if_pos htr] at hmem
        obtain ⟨o, ho, hrest⟩ := ih hmem
        exact ⟨o, by simp [ho], hrest⟩
      · rw [if_neg htr] at hmem
        by_cases hw : env.writeOk (first_block + off)
        · rw [if_pos hw] at hmem
          simp only [List.mem_cons] at hmem
          rcases hmem with heq | hmem
          · have hb : b = first_block + off := by
              simpa using heq
            exact ⟨off, by simp, hb, h0, htr⟩
          · obtain ⟨o, ho, hrest⟩ := ih hmem
            exact ⟨o, by simp [ho], hrest⟩
        · rw [if_neg hw] at hmem
          simp only [List.mem_singleton] at hmem
          have hb : b = first_block + off := by
            simpa using hmem
          exact ⟨off, by simp, hb, h0, htr⟩

/-- In sectors 0 to 39, a block at a non-skipped offset is never block 0
and never the trailer of its own sector. -/
theorem nonSkipped_offset_not_protected :
    ∀ s : Nat, s < 40 → ∀ off : Nat, off < getBlockCountInSector s →
      ¬(s = 0 ∧ off = 0) → off ≠ getBlockCountInSector s - 1 →
      isProtectedBlock (getFirstBlockOfSector s + off) = false := by
  decide

/-- Block writes emitted by writeSector in a sector below 40 never target a
protected block. -/
theorem writeSector_no_protected_write (st : MifareState) (env : MifareEnv)
    (sector : Nat) (hs : sector < 40) (b : Nat)
    (hmem : HWEvent.write b ∈ (writeSector st env sector).2) :
    isProtectedBlock b = false := by
  unfold writeSector at hmem
  by_cases hc : (writeAuthCascade st env sector (getFirstBlockOfSector sector)).1
  · rw [if_pos hc] at hmem
    simp only [List.mem_append] at hmem
    rcases hmem with hmem | hmem
    · exact absurd hmem (writeAuthCascade_no_write st env sector (getFirstBlockOfSector sector) b)
    · obtain ⟨off, hoff, hb, h0, htr⟩ := writeSectorBlocks_write_shape env sector
        (getFirstBlockOfSector sector) (getBlockCountInSector sector)
        (List.range (getBlockCountInSector sector)) b hmem
      rw [List.mem_range] at hoff
      rw [hb]
      exact nonSkipped_offset_not_protected sector hs off hoff h0 htr
  · rw [if_neg hc] at hmem
    exact absurd hmem (writeAuthCascade_no_write st env sector (getFirstBlockOfSector sector) b)

/-- The sector loop aborts at the first failing sector: all earlier sectors
succeeded without timeout, so the loop returns that sector's error code
and the trace stops with that sector. -/
theorem writeSectorsList_abort (st : MifareState) (env : MifareEnv)
    (l1 : List Nat) (s : Nat) (l2 : List Nat)
    (hok : ∀ t ∈ l1, (writeSector st env t).1 = SUCCESS ∧ env.timedOutAfterSector t = false)
    (hfail : (writeSector st env s).1 ≠ SUCCESS) :
    writeSectorsList st env (l1 ++ s :: l2) =
      ((writeSector st env s).1, sectorTraces st env l1 ++ (writeSector st env s).2) := by
  induction l1 with
  | nil =>
    simp only [List.nil_append, sectorTraces]
    unfold writeSectorsList
    rw [if_pos hfail]
  | cons t rest ih =>
    have ht := hok t (by simp)
    have hrest : ∀ u ∈ rest, (writeSector st env u).1 = SUCCESS ∧
        env.timedOutAfterSector u = false := fun u hu => hok u (by simp [hu])
    simp only [List.cons_append, sectorTraces]
    unfold writeSectorsList
    rw [if_neg (by rw [ht.1]; simp), if_neg (by rw [ht.2]; simp)]
    rw [ih hrest]
    simp [List.append_assoc]

/-- C2: during a Mifare full write, block 0 and the trailer block of every
sector are never written (every block-write event of every sector write
targets a non-protected block), and the first sector whose write fails
aborts the entire operation: write_tag_headless returns that sector's
error code and its hardware trace ends with that sector, so no later
sector is attempted. -/
theorem full_write_skips_protected_and_aborts (st : MifareState) (env : MifareEnv)
    (s : Nat) (hdv : st.dump_valid = true) (hdet : env.detect = true)
    (hs : s < getSectorCount (stateAfterDetect st env).card_type)
    (hok : ∀ t ∈ List.range s, (writeSector (stateAfterDetect st env) env t).1 = SUCCESS ∧
      env.timedOutAfterSector t = false)
    (hfail : (writeSector (stateAfterDetect st env) env s).1 ≠ SUCCESS) :
    write_tag_headless st env =
      ((writeSector (stateAfterDetect st env) env s).1,
       stateAfterDetect st env,
       HWEvent.detect :: (sectorTraces (stateAfterDetect st env) env (List.range s) ++
         (writeSector (stateAfterDetect st env) env s).2)) ∧
    ∀ (st2 : MifareState) (env2 : MifareEnv) (s2 : Nat) (b : Nat), s2 < 40 →
      HWEvent.write b ∈ (writeSector st2 env2 s2).2 → isProtectedBlock b = false := by
  constructor
  · have hsplit : List.range (getSectorCount (stateAfterDetect st env).card_type) =
        List.range s ++ s ::
          List.range' (s + 1) (getSectorCount (stateAfterDetect st env).card_type - s - 1) := by
      rw [List.range_eq_range', List.range_eq_range']
      rw [show getSectorCount (stateAfterDetect st env).card_type =
        (getSectorCount (stateAfterDetect st env).card_type - s) + s by omega]
      rw [← List.range'_append 0 s (getSectorCount (stateAfterDetect st env).card_type - s) 1]
      simp only [Nat.zero_add, Nat.one_mul, List.append_cancel_left_eq]
      rw [show getSectorCount (stateAfterDetect st env).card_type - s =
        (getSectorCount (stateAfterDetect st env).card_type - s - 1) + 1 by omega]
      rw [List.range'_succ]
      congr 2 <;> omega
    unfold write_tag_headless
    rw [if_neg (by rw [hdv]; simp), if_neg (by rw [hdet]; simp),
      if_neg (by simp [stateAfterDetect])]
    rw [hsplit, writeSectorsList_abort (stateAfterDetect st env) env (List.range s) s _ hok hfail]
  · intro st2 env2 s2 b hs2 hmem
    exact writeSector_no_protected_write st2 env2 s2 hs2 b hmem

/-- Witness for full_write_skips_protected_and_aborts: on the sample oracle
every authentication fails, so sector 0 aborts the whole write with the
authentication error. -/
theorem full_write_skips_protected_and_aborts_witness :
    sampleState.dump_valid = true ∧ sampleEnv.detect = true ∧
    0 < getSectorCount (stateAfterDetect sampleState sampleEnv).card_type ∧
    (∀ t ∈ List.range 0,
      (writeSector (stateAfterDetect sampleState sampleEnv) sampleEnv t).1 = SUCCESS ∧
        sampleEnv.timedOutAfterSector t = false) ∧
    (writeSector (stateAfterDetect sampleState sampleEnv) sampleEnv 0).1 ≠ SUCCESS ∧
    (write_tag_headless sampleState sampleEnv =
      ((writeSector (stateAfterDetect sampleState sampleEnv) sampleEnv 0).1,
       stateAfterDetect sampleState sampleEnv,
       HWEvent.detect ::
         (sectorTraces (stateAfterDetect sampleState sampleEnv) sampleEnv (List.range 0) ++
           (writeSector (stateAfterDetect sampleState sampleEnv) sampleEnv 0).2)) ∧
     ∀ (st2 : MifareState) (env2 : MifareEnv) (s2 : Nat) (b : Nat), s2 < 40 →
       HWEvent.write b ∈ (writeSector st2 env2 s2).2 → isProtectedBlock b = false) :=
  ⟨by decide, by decide, by decide, by decide, by decide,
    full_write_skips_protected_and_aborts sampleState sampleEnv 0
      (by decide) (by decide) (by decide) (by decide) (by decide)⟩

/-! ## Coordinator TagInfo record (nfc_manager.h lines 71-94,
nfc_manager.cpp lines 524-601 and 839-909) -/

/-- NFCManager protocol enum (nfc_manager.h lines 53-59). -/
inductive Protocol where
  | unknown
  | srix
  | mifareClassic
  | ntag
  | desfire
deriving DecidableEq, Repr

/-- The protocol-specific payload arm of TagInfo.  The C++ source uses an
overlapping-storage union; here it is a tagged variant, which is adequate
because the source only ever reads the arm it last wrote. -/
inductive TagData where
  | srixD (dump : List Nat)
  | mifareClassicD (dump : List Nat) (sectors : Nat)
deriving DecidableEq, Repr

/-- The protocol-agnostic TagInfo record (nfc_manager.h lines 71-94). -/
structure TagInfo where
  protocol : Protocol
  protocol_name : String
  uid : List Nat
  uid_length : Nat
  valid : Bool
  data : TagData
deriving DecidableEq, Repr

/-- Length of the Mifare payload carried by a TagInfo. -/
def TagInfo.mifareDumpLen (info : TagInfo) : Nat :=
  match info.data with
  | TagData.mifareClassicD d _ => d.length
  | _ => 0

/-- Sector count carried by the Mifare arm of a TagInfo. -/
def TagInfo.mifareSectorCount (info : TagInfo) : Nat :=
  match info.data with
  | TagData.mifareClassicD _ s => s
  | _ => 0

/-- MifareTool::cardTypeToString (mifare_tool.cpp lines 1154-1163). -/
def cardTypeToString (t : CardType) : String :=
  match t with
  | CardType.mifare1K => "Mifare Classic 1K"
  | CardType.mifare4K => "Mifare Classic 4K"
  | CardType.unknown => "Unknown"

/-- The TagInfo produced by a successful NFCManager::readMifare
(nfc_manager.cpp lines 563-590): the UID parsed back from the handler's
JSON (capped at 10 bytes by stringToUid), and for both card types a copy
of exactly MIFARE_1K_DUMP_SIZE = 1024 dump bytes with sectors = 16 (the
4K branch carries the comment that TagInfo is limited to 1K). -/
def readMifareFill (st : MifareState) : TagInfo :=
  { protocol := Protocol.mifareClassic
    protocol_name := cardTypeToString st.card_type
    uid := (List.range (min st.uid_length 10)).map st.uid
    uid_length := min st.uid_length 10
    valid := true
    data :=
      if st.card_type = CardType.mifare1K then
        TagData.mifareClassicD ((List.range 1024).map st.dump) 16
      else
        TagData.mifareClassicD ((List.range 1024).map st.dump) 16 }

/-- The TagInfo produced by a successful NFCManager::loadMifare
(nfc_manager.cpp lines 879-894): again exactly 1024 dump bytes are copied,
with sectors = 16 for a 1K file and sectors = 40 for a 4K file (the dump
stays truncated, flagged by the 4K warning in the source). -/
def loadMifareFill (st : MifareState) : TagInfo :=
  { protocol := Protocol.mifareClassic
    protocol_name :=
      if st.card_type = CardType.mifare1K then "Mifare Classic 1K" else "Mifare Classic 4K"
    uid := (List.range st.uid_length).map st.uid
    uid_length := st.uid_length
    valid := true
    data := TagData.mifareClassicD ((List.range 1024).map st.dump)
      (if st.card_type = CardType.mifare1K then 16 else 40) }

/-- A handler state holding a full 4K card, for the C5 counterexample. -/
def sample4KState : MifareState :=
  { sampleState with card_type := CardType.mifare4K, total_blocks := 256, blocks_read := 256 }

/-- C5 counterexample: after a successful read of a Mifare Classic 4K card,
the coordinator's TagRecord does not carry 4096 bytes with sector count 40
as the claim requires: it carries 1024 bytes with sector count 16, and a
load of a 4K dump still carries only 1024 bytes. -/
theorem record_payload_4K_counterexample :
    (readMifareFill sample4KState).protocol_name = "Mifare Classic 4K" ∧
    (readMifareFill sample4KState).mifareSectorCount = 16 ∧
    (readMifareFill sample4KState).mifareDumpLen = 1024 ∧
    ¬((readMifareFill sample4KState).mifareDumpLen = 4096 ∧
      (readMifareFill sample4KState).mifareSectorCount = 40) ∧
    (loadMifareFill sample4KState).mifareSectorCount = 40 ∧
    ¬(loadMifareFill sample4KState).mifareDumpLen = 4096 := by
  have hct : sample4KState.card_type = CardType.mifare4K := rfl
  have hdump : (readMifareFill sample4KState).mifareDumpLen = 1024 := by
    unfold readMifareFill TagInfo.mifareDumpLen
    rw [hct]
    simp
  have hsec : (readMifareFill sample4KState).mifareSectorCount = 16 := by
    unfold readMifareFill TagInfo.mifareSectorCount
    rw [hct]
    simp
  have hldump : (loadMifareFill sample4KState).mifareDumpLen = 1024 := by
    unfold loadMifareFill TagInfo.mifareDumpLen
    simp
  have hlsec : (loadMifareFill sample4KState).mifareSectorCount = 40 := by
    unfold loadMifareFill TagInfo.mifareSectorCount
    rw [hct]
    simp
  refine ⟨rfl, hsec, hdump, ?_, hlsec, ?_⟩
  · intro h
    rw [hdump] at h
    exact absurd h.1 (by norm_num)
  · rw [hldump]
    norm_num

/-- C5 as amended: after every successful Mifare read through the
coordinator, the current TagRecord is valid and carries exactly 1024 dump
bytes with sector count 16 regardless of card type (a 4K card is
truncated); after every successful load it carries exactly 1024 dump bytes
with sector count 16 for a 1K file and 40 for a 4K file; and for a 1K card
the original claim holds: the record carries the full 1024-byte payload of
the handler dump, sector count 16, and the 1K name. -/
theorem record_payload_after_read_load (st : MifareState) :
    (readMifareFill st).valid = true ∧
    (readMifareFill st).mifareDumpLen = 1024 ∧
    (readMifareFill st).mifareSectorCount = 16 ∧
    (loadMifareFill st).valid = true ∧
    (loadMifareFill st).mifareDumpLen = 1024 ∧
    (loadMifareFill st).mifareSectorCount =
      (if st.card_type = CardType.mifare1K then 16 else 40) ∧
    (st.card_type = CardType.mifare1K →
      (readMifareFill st).protocol_name = "Mifare Classic 1K" ∧
      (readMifareFill st).data =
        TagData.mifareClassicD ((List.range 1024).map st.dump) 16) := by
  unfold readMifareFill loadMifareFill
  refine ⟨rfl, ?_, ?_, rfl, ?_, ?_, ?_⟩
  · by_cases h : st.card_type = CardType.mifare1K <;>
      simp [TagInfo.mifareDumpLen, h]
  · by_cases h : st.card_type = CardType.mifare1K <;>
      simp [TagInfo.mifareSectorCount, h]
  · simp [TagInfo.mifareDumpLen]
  · simp [TagInfo.mifareSectorCount]
  · intro h
    simp [h, cardTypeToString]

/-! ## SRIX full-tag write (srix_tool.cpp lines 198-261) and its coordinator
mapping (nfc_manager.cpp lines 238-266) -/

/-- SRIXTool return codes (srix_tool.h lines 83-95). -/
def SrixSUCCESS : Int := 0

def SrixERROR_TIMEOUT : Int := -1

def SrixERROR_NO_DUMP : Int := -2

def SrixERROR_INCOMPLETE_DUMP : Int := -3

def SrixERROR_WRITE_FAILED : Int := -5

def SrixERROR_FILE_NOT_FOUND : Int := -2

/-- SRIX tag specification (srix_tool.h lines 56-60). -/
def SRIX_BLOCK_COUNT : Nat := 128

/-- Hardware oracle for the SRIX engine: the initial tag wait, the outcome
of each block write, and the mandatory re-detection after each written
block. -/
structure SrixEnv where
  detect : Bool
  writeOk : Nat → Bool
  redetect : Nat → Bool

/-- The block loop of SRIXTool::write_tag_headless (srix_tool.cpp lines
224-255): write the block (a failed write aborts with the hard error),
count it, then require the tag to be re-detected; if re-detection fails,
return the number of blocks successfully written so far. -/
def srixWriteLoop (env : SrixEnv) (b written : Nat) : Int :=
  if b < SRIX_BLOCK_COUNT then
    if env.writeOk b then
      if env.redetect b then srixWriteLoop env (b + 1) (written + 1)
      else ((written : Int) + 1)
    else SrixERROR_WRITE_FAILED
  else SrixSUCCESS
termination_by SRIX_BLOCK_COUNT - b
decreasing_by unfold SRIX_BLOCK_COUNT at *; omega

/-- SRIXTool::write_tag_headless (srix_tool.cpp lines 198-261).  The
dumpValid flag stands for dump_valid_from_read or dump_valid_from_load;
the null-transport guard is outside the model (the coordinator only calls
with a live handler). -/
def srix_write_tag_headless (dumpValid : Bool) (env : SrixEnv) : Int :=
  if dumpValid = false then SrixERROR_NO_DUMP
  else if env.detect = false then SrixERROR_TIMEOUT
  else srixWriteLoop env 0 0

/-- The mapping of the SRIX engine write result into the coordinator Result
(NFCManager::writeSRIX, nfc_manager.cpp lines 238-263). -/
def writeSRIXResult (write_result : Int) : CResult :=
  if write_result = 0 then
    { success := true, message := "SRIX tag written and verified", code := 0 }
  else if 0 < write_result then
    { success := false, message := "Tag lost at block: " ++ toString write_result,
      code := write_result }
  else if write_result = -1 then
    { success := false, message := "Timeout waiting for tag", code := write_result }
  else if write_result = -2 then
    { success := false, message := "No data loaded", code := write_result }
  else if write_result = -5 then
    { success := false, message := "Write failed", code := write_result }
  else if write_result = -6 then
    { success := false, message := "NFC hardware error", code := write_result }
  else
    { success := false, message := "Unknown error", code := write_result }

/-- C7: if an SRIX full write loses the tag after n blocks were written
(all n block writes succeeded, the first n-1 re-detections succeeded and
the re-detection after block n-1 fails), the engine returns the positive
count n rather than a hard failure, and the coordinator Result carries
code n > 0 with the tag-lost message, distinct from code 0 (full success)
and from every negative hard-failure code. -/
theorem srix_tag_lost_returns_block_count (env : SrixEnv) (n : Nat)
    (hn1 : 1 ≤ n) (hn : n ≤ 128) (hdet : env.detect = true)
    (hw : ∀ b, b < n → env.writeOk b = true)
    (hre : ∀ b, b + 1 < n → env.redetect b = true)
    (hlost : env.redetect (n - 1) = false) :
    srix_write_tag_headless true env = (n : Int) ∧ 0 < (n : Int) ∧
    writeSRIXResult (srix_write_tag_headless true env) =
      { success := false, message := "Tag lost at block: " ++ toString (n : Int),
        code := (n : Int) } := by
  have key : ∀ k j : Nat, j + k + 1 = n → srixWriteLoop env j j = (n : Int) := by
    intro k
    induction k with
    | zero =>
      intro j hj
      unfold srixWriteLoop
      rw [if_pos (by unfold SRIX_BLOCK_COUNT; omega)]
      rw [if_pos (hw j (by omega))]
      rw [if_neg (by rw [show j = n - 1 by omega, hlost]; simp)]
      omega
    | succ k ih =>
      intro j hj
      unfold srixWriteLoop
      rw [if_pos (by unfold SRIX_BLOCK_COUNT; omega)]
      rw [if_pos (hw j (by omega))]
      rw [if_pos (hre j (by omega))]
      exact ih (j + 1) (by omega)
  have hmain : srix_write_tag_headless true env = (n : Int) := by
    unfold srix_write_tag_headless
    rw [if_neg (by simp), if_neg (by rw [hdet]; simp)]
    exact key (n - 1) 0 (by omega)
  have hpos : 0 < (n : Int) := by
    exact_mod_cast hn1
  refine ⟨hmain, hpos, ?_⟩
  rw [hmain]
  unfold writeSRIXResult
  rw [if_neg (by omega), if_pos hpos]

/-- The hardware oracle of the C7 witness: every write succeeds and the tag
disappears right after block 49 (so after 50 successful block writes). -/
def srixLostEnv : SrixEnv :=
  { detect := true, writeOk := fun _ => true, redetect := fun b => decide (b < 49) }

/-- Witness for srix_tag_lost_returns_block_count: the tag disappears after
50 of 128 blocks, the engine returns 50 and the coordinator reports code
50 with the tag-lost message. -/
theorem srix_tag_lost_returns_block_count_witness :
    (1 : Nat) ≤ 50 ∧ (50 : Nat) ≤ 128 ∧ srixLostEnv.detect = true ∧
    (∀ b, b < 50 → srixLostEnv.writeOk b = true) ∧
    (∀ b, b + 1 < 50 → srixLostEnv.redetect b = true) ∧
    srixLostEnv.redetect (50 - 1) = false ∧
    (srix_write_tag_headless true srixLostEnv = ((50 : Nat) : Int) ∧
      0 < ((50 : Nat) : Int) ∧
      writeSRIXResult (srix_write_tag_headless true srixLostEnv) =
        { success := false, message := "Tag lost at block: " ++ toString ((50 : Nat) : Int),
          code := ((50 : Nat) : Int) }) :=
  ⟨by decide, by decide, by decide, fun b hb => rfl,
    fun b hb => by simp [srixLostEnv]; omega, by decide,
    srix_tag_lost_returns_block_count srixLostEnv 50 (by decide) (by decide) (by decide)
      (fun b hb => rfl) (fun b hb => by simp [srixLostEnv]; omega) (by decide)⟩

/-- Witness for selective_write_skips_blocks_ge_64 on the batch [64, 200]. -/
theorem selective_write_skips_blocks_ge_64_witness :
    ([64, 200] : List Nat) ≠ [] ∧ (∀ x ∈ ([64, 200] : List Nat), 64 ≤ x) ∧
    (writeMifareBlocksSelective sampleState sampleEnv true [64, 200] =
        ({ success := true, message := "Successfully wrote 0 blocks", code := 0 },
         sampleState, []) ∧
      ∀ (st2 : MifareState) (env2 : MifareEnv) (blocks2 : List Nat) (written : Nat),
        writeMifareBlocksSelectiveLoop env2 st2 blocks2 written =
          writeMifareBlocksSelectiveLoop env2 st2 (blocks2.filter (fun x => x < 64)) written) :=
  ⟨by decide, by decide,
    selective_write_skips_blocks_ge_64 sampleState sampleEnv [64, 200] (by decide) (by decide)⟩

/-! ## Mifare sector read with key caching and trailer reconstruction
(mifare_tool.cpp lines 477-626) -/

/-- The working key discovered by the read cascade: which key slot
authenticated and its 6 bytes. -/
inductive FoundKey where
  | keyA (k : List Nat)
  | keyB (k : List Nat)
deriving DecidableEq, Repr

/-- First key of the database that authenticates (the brute-force loops of
readSectorWithCache, mifare_tool.cpp lines 536-554 and 563-581; each failed
attempt re-activates the card, which leaves the modelled state unchanged). -/
def scanKeysFind (env : MifareEnv) (first_block : Nat) (keyA : Bool) :
    List (List Nat) → Option (List Nat)
  | [] => none
  | k :: rest =>
    if env.auth first_block keyA k then some k
    else scanKeysFind env first_block keyA rest

/-- Steps 3 and 4 of the read cascade: brute-force with Key A, then with
Key B; a scan success also replaces the corresponding cached-key hint
passed to the next sector. -/
def readAuthCascadeScan (env : MifareEnv) (first_block : Nat)
    (ca cb : Option (List Nat)) :
    Option FoundKey × Option (List Nat) × Option (List Nat) :=
  match scanKeysFind env first_block true env.keys with
  | some k => (some (FoundKey.keyA k), some k, cb)
  | none =>
    match scanKeysFind env first_block false env.keys with
    | some k => (some (FoundKey.keyB k), ca, some k)
    | none => (none, ca, cb)

/-- Step 2 of the read cascade: the cached Key B hint
(mifare_tool.cpp lines 513-528). -/
def readAuthCascadeB (env : MifareEnv) (first_block : Nat)
    (ca cb : Option (List Nat)) :
    Option FoundKey × Option (List Nat) × Option (List Nat) :=
  match cb with
  | some k =>
    if env.auth first_block false k then (some (FoundKey.keyB k), ca, cb)
    else readAuthCascadeScan env first_block ca cb
  | none => readAuthCascadeScan env first_block ca cb

/-- The read-side authentication cascade (mifare_tool.cpp lines 490-587):
cached Key A, cached Key B, database scan with Key A, database scan with
Key B. -/
def readAuthCascade (env : MifareEnv) (first_block : Nat)
    (ca cb : Option (List Nat)) :
    Option FoundKey × Option (List Nat) × Option (List Nat) :=
  match ca with
  | some k =>
    if env.auth first_block true k then (some (FoundKey.keyA k), ca, cb)
    else readAuthCascadeB env first_block ca cb
  | none => readAuthCascadeB env first_block ca cb

/-- Store a successfully read 16-byte block into the dump and count it
(mifare_tool.cpp lines 596-598). -/
def storeBlock (st : MifareState) (blk : Nat) (bytes : List Nat) : MifareState :=
  { st with
    dump := fun i =>
      if blk * 16 ≤ i ∧ i < blk * 16 + 16 then bytes.getD (i - blk * 16) 0 else st.dump i,
    blocks_read := st.blocks_read + 1 }

/-- Record the working key of the cascade in the per-sector key cache
(mifare_tool.cpp lines 500-502, 520-522, 544-546, 571-573). -/
def cacheFoundKey (st : MifareState) (sector : Nat) (f : FoundKey) : MifareState :=
  match f with
  | FoundKey.keyA k =>
    { st with sector_keys := fun s =>
        if s = sector then
          { st.sector_keys s with key_a := k, key_a_valid := true }
        else st.sector_keys s }
  | FoundKey.keyB k =>
    { st with sector_keys := fun s =>
        if s = sector then
          { st.sector_keys s with key_b := k, key_b_valid := true }
        else st.sector_keys s }

/-- The block-read loop of readSectorWithCache (mifare_tool.cpp lines
592-603): read each block of the sector in order; the first failed read
aborts with the partial state. -/
def readBlocksLoop (env : MifareEnv) : MifareState → List Nat → Bool × MifareState
  | st, [] => (true, st)
  | st, blk :: rest =>
    match env.readBlock blk with
    | some bytes => readBlocksLoop env (storeBlock st blk bytes) rest
    | none => (false, st)

/-- The trailer reconstruction of readSectorWithCache (mifare_tool.cpp
lines 605-626): overwrite the trailer's Key A bytes 0-5 when a Key A is
cached and the Key B bytes 10-15 when a Key B is cached; bytes 6-9 (the
access bits) remain as read from the tag. -/
def reconstructTrailer (st : MifareState) (sector : Nat) : MifareState :=
  { st with dump := fun i =>
      if (st.sector_keys sector).key_a_valid ∧
          trailerOfSector sector * 16 ≤ i ∧ i < trailerOfSector sector * 16 + 6 then
        (st.sector_keys sector).key_a.getD (i - trailerOfSector sector * 16) 0
      else if (st.sector_keys sector).key_b_valid ∧
          trailerOfSector sector * 16 + 10 ≤ i ∧ i < trailerOfSector sector * 16 + 16 then
        (st.sector_keys sector).key_b.getD (i - (trailerOfSector sector * 16 + 10)) 0
      else st.dump i }

/-- MifareTool::readSectorWithCache (mifare_tool.cpp lines 477-626). -/
def readSectorWithCache (st : MifareState) (env : MifareEnv) (sector : Nat)
    (ca cb : Option (List Nat)) :
    Int × MifareState × Option (List Nat) × Option (List Nat) :=
  match readAuthCascade env (getFirstBlockOfSector sector) ca cb with
  | (none, ca1, cb1) => (ERROR_AUTH_FAILED, st, ca1, cb1)
  | (some f, ca1, cb1) =>
    match readBlocksLoop env (cacheFoundKey st sector f)
        ((List.range (getBlockCountInSector sector)).map
          (fun off => getFirstBlockOfSector sector + off)) with
    | (false, st2) => (ERROR_READ_FAILED, st2, ca1, cb1)
    | (true, st2) => (SUCCESS, reconstructTrailer st2 sector, ca1, cb1)

/-- The block-read loop never touches the key cache. -/
theorem readBlocksLoop_sector_keys (env : MifareEnv) (l : List Nat) (st : MifareState) :
    (readBlocksLoop env st l).2.sector_keys = st.sector_keys := by
  induction l generalizing st with
  | nil => rfl
  | cons blk rest ih =>
    unfold readBlocksLoop
    cases henv : env.readBlock blk with
    | some bytes =>
      simp only []
      rw [ih (storeBlock st blk bytes)]
      rfl
    | none => rfl

/-- Unfolding equation of the block-read loop on a non-empty block list. -/
theorem readBlocksLoop_cons (env : MifareEnv) (st : MifareState) (blk : Nat)
    (rest : List Nat) :
    readBlocksLoop env st (blk :: rest) =
      match env.readBlock blk with
      | some bytes => readBlocksLoop env (storeBlock st blk bytes) rest
      | none => (false, st) := rfl

/-- The block-read loop splits over list append. -/
theorem readBlocksLoop_append (env : MifareEnv) (l1 l2 : List Nat) (st : MifareState) :
    readBlocksLoop env st (l1 ++ l2) =
      if (readBlocksLoop env st l1).1 then readBlocksLoop env (readBlocksLoop env st l1).2 l2
      else readBlocksLoop env st l1 := by
  induction l1 generalizing st with
  | nil => simp [readBlocksLoop]
  | cons blk rest ih =>
    rw [List.cons_append, readBlocksLoop_cons, readBlocksLoop_cons env st blk rest]
    cases henv : env.readBlock blk with
    | some bytes =>
      simp only []
      exact ih (storeBlock st blk bytes)
    | none => simp

/-- C8: whenever readSectorWithCache succeeds on a sector, in the resulting
in-memory dump the sector trailer's access-condition bytes 6-9 hold
exactly the bytes read from the card's trailer block, its Key A bytes 0-5
hold the working Key A whenever the cascade found one, and its Key B bytes
10-15 hold the working Key B whenever the cascade found one. -/
theorem read_reconstructs_trailer_keys (st : MifareState) (env : MifareEnv)
    (sector : Nat) (ca cb : Option (List Nat)) (tb : List Nat)
    (hsucc : (readSectorWithCache st env sector ca cb).1 = SUCCESS)
    (htb : env.readBlock (trailerOfSector sector) = some tb) :
    (∀ j, 6 ≤ j → j < 10 →
      (readSectorWithCache st env sector ca cb).2.1.dump
        (trailerOfSector sector * 16 + j) = tb.getD j 0) ∧
    (∀ k, (readAuthCascade env (getFirstBlockOfSector sector) ca cb).1 =
        some (FoundKey.keyA k) →
      ∀ j, j < 6 →
        (readSectorWithCache st env sector ca cb).2.1.dump
          (trailerOfSector sector * 16 + j) = k.getD j 0) ∧
    (∀ k, (readAuthCascade env (getFirstBlockOfSector sector) ca cb).1 =
        some (FoundKey.keyB k) →
      ∀ j, 10 ≤ j → j < 16 →
        (readSectorWithCache st env sector ca cb).2.1.dump
          (trailerOfSector sector * 16 + j) = k.getD (j - 10) 0) := by
  rcases hc : readAuthCascade env (getFirstBlockOfSector sector) ca cb with ⟨fo, ca1, cb1⟩
  cases fo with
  | none =>
    exfalso
    unfold readSectorWithCache at hsucc
    rw [hc] at hsucc
    simp only [] at hsucc
    exact absurd hsucc (by unfold ERROR_AUTH_FAILED SUCCESS; norm_num)
  | some f =>
    have hcount1 : 1 ≤ getBlockCountInSector sector := by
      unfold getBlockCountInSector BLOCKS_PER_SMALL_SECTOR BLOCKS_PER_LARGE_SECTOR
      split <;> norm_num
    have hsplit : (List.range (getBlockCountInSector sector)).map
        (fun off => getFirstBlockOfSector sector + off) =
        ((List.range (getBlockCountInSector sector - 1)).map
          (fun off => getFirstBlockOfSector sector + off)) ++ [trailerOfSector sector] := by
      rw [show getBlockCountInSector sector = (getBlockCountInSector sector - 1) + 1 by omega]
      rw [List.range_succ, List.map_append]
      unfold trailerOfSector
      simp
    rcases hloop : readBlocksLoop env (cacheFoundKey st sector f)
        ((List.range (getBlockCountInSector sector)).map
          (fun off => getFirstBlockOfSector sector + off)) with ⟨ok, st2⟩
    cases ok with
    | false =>
      exfalso
      unfold readSectorWithCache at hsucc
      rw [hc] at hsucc
      simp only [] at hsucc
      rw [hloop] at hsucc
      simp only [] at hsucc
      exact absurd hsucc (by unfold ERROR_READ_FAILED SUCCESS; norm_num)
    | true =>
      have hres : (readSectorWithCache st env sector ca cb).2.1 =
          reconstructTrailer st2 sector := by
        unfold readSectorWithCache
        rw [hc]
        simp only []
        rw [hloop]
      have hkeys2 : st2.sector_keys = (cacheFoundKey st sector f).sector_keys := by
        have := readBlocksLoop_sector_keys env
          ((List.range (getBlockCountInSector sector)).map
            (fun off => getFirstBlockOfSector sector + off)) (cacheFoundKey st sector f)
        rw [hloop] at this
        exact this
      have hlast : ∃ st1, st2 = storeBlock st1 (trailerOfSector sector) tb := by
        rw [hsplit] at hloop
        rw [readBlocksLoop_append] at hloop
        rcases hfirst : readBlocksLoop env (cacheFoundKey st sector f)
            ((List.range (getBlockCountInSector sector - 1)).map
              (fun off => getFirstBlockOfSector sector + off)) with ⟨ok1, st1⟩
        rw [hfirst] at hloop
        cases ok1 with
        | false =>
          rw [if_neg (by simp)] at hloop
          exact absurd (congrArg Prod.fst hloop) (by simp)
        | true =>
          rw [if_pos rfl] at hloop
          rw [readBlocksLoop_cons, htb] at hloop
          exact ⟨st1, (congrArg Prod.snd hloop).symm⟩
      obtain ⟨st1, hst2⟩ := hlast
      have hdump : ∀ j, j < 16 →
          st2.dump (trailerOfSector sector * 16 + j) = tb.getD j 0 := by
        intro j hj
        rw [hst2]
        unfold storeBlock
        simp only []
        rw [if_pos (by omega)]
        congr 1
        omega
      refine ⟨?_, ?_, ?_⟩
      · intro j hj6 hj10
        rw [hres]
        unfold reconstructTrailer
        simp only []
        rw [if_neg (by omega), if_neg (by omega)]
        exact hdump j (by omega)
      · intro k hk j hj
        have hfk : f = FoundKey.keyA k := by
          simpa using hk
        have hka : (st2.sector_keys sector).key_a = k ∧
            (st2.sector_keys sector).key_a_valid = true := by
          rw [hkeys2, hfk]
          unfold cacheFoundKey
          simp
        rw [hres]
        unfold reconstructTrailer
        simp only []
        rw [if_pos ⟨hka.2, by omega, by omega⟩, hka.1]
        congr 1
        omega
      · intro k hk j hj10 hj16
        have hfk : f = FoundKey.keyB k := by
          simpa using hk
        have hkb : (st2.sector_keys sector).key_b = k ∧
            (st2.sector_keys sector).key_b_valid = true := by
          rw [hkeys2, hfk]
          unfold cacheFoundKey
          simp
        rw [hres]
        unfold reconstructTrailer
        simp only []
        rw [if_neg (by omega), if_pos ⟨hkb.2, by omega, by omega⟩, hkb.1]
        congr 1
        omega

/-- The hardware oracle of the C8 witness: the key FFFFFFFFFFFF (as bytes)
authenticates as Key A everywhere and every block reads back as
sixteen 0xAB bytes. -/
def sampleReadEnv : MifareEnv :=
  { detect := true
    identify4K := false
    auth := fun _ keyA k => keyA && k == [255, 255, 255, 255, 255, 255]
    readBlock := fun _ => some (List.replicate 16 171)
    writeOk := fun _ => false
    keys := [[255, 255, 255, 255, 255, 255]]
    timedOutAfterSector := fun _ => false }

/-- Witness for read_reconstructs_trailer_keys: sector 1 is read with the
default key found by the Key A scan; the reconstructed trailer carries the
key in bytes 0-5 and the read access bytes 6-9. -/
theorem read_reconstructs_trailer_keys_witness :
    (readSectorWithCache sampleState sampleReadEnv 1 none none).1 = SUCCESS ∧
    sampleReadEnv.readBlock (trailerOfSector 1) = some (List.replicate 16 171) ∧
    ((∀ j, 6 ≤ j → j < 10 →
      (readSectorWithCache sampleState sampleReadEnv 1 none none).2.1.dump
        (trailerOfSector 1 * 16 + j) = (List.replicate 16 171).getD j 0) ∧
    (∀ k, (readAuthCascade sampleReadEnv (getFirstBlockOfSector 1) none none).1 =
        some (FoundKey.keyA k) →
      ∀ j, j < 6 →
        (readSectorWithCache sampleState sampleReadEnv 1 none none).2.1.dump
          (trailerOfSector 1 * 16 + j) = k.getD j 0) ∧
    (∀ k, (readAuthCascade sampleReadEnv (getFirstBlockOfSector 1) none none).1 =
        some (FoundKey.keyB k) →
      ∀ j, 10 ≤ j → j < 16 →
        (readSectorWithCache sampleState sampleReadEnv 1 none none).2.1.dump
          (trailerOfSector 1 * 16 + j) = k.getD (j - 10) 0)) :=
  ⟨by decide, by decide,
    read_reconstructs_trailer_keys sampleState sampleReadEnv 1 none none
      (List.replicate 16 171) (by decide) (by decide)⟩

/-! ## Character-list utilities shared by the dump-file codecs

The dump files are line-oriented text; a file is modelled as the list of
its lines and a line as a list of characters (the source reads lines with
readStringUntil and writes them with println).  The Arduino String
operations used by the codecs (trim, startsWith, substring, replace,
indexOf, toUpperCase, strtoul) are modelled as functions on List Char. -/

/-- The whitespace test of String::trim. -/
def isWhitespaceChar (c : Char) : Bool :=
  c == ' ' || c == '\t' || c == '\n' || c == '\r'

/-- String::trim: strip leading and trailing whitespace. -/
def lcTrim (l : List Char) : List Char :=
  ((l.dropWhile isWhitespaceChar).reverse.dropWhile isWhitespaceChar).reverse

/-- String::startsWith. -/
def lcStartsWith : List Char → List Char → Bool
  | _, [] => true
  | [], _ :: _ => false
  | c :: cs, p :: ps => c == p && lcStartsWith cs ps

/-- String::replace(ch, "") — remove every occurrence of one character. -/
def lcRemove (ch : Char) (l : List Char) : List Char :=
  l.filter (fun c => c != ch)

/-- String::indexOf(pat) >= 0 — substring containment. -/
def lcContainsSub (pat : List Char) : List Char → Bool
  | [] => lcStartsWith [] pat
  | c :: cs => lcStartsWith (c :: cs) pat || lcContainsSub pat cs

/-- The part after the first occurrence of a character
(substring(indexOf(ch) + 1)), or none when the character is absent. -/
def afterFirst (ch : Char) : List Char → Option (List Char)
  | [] => none
  | c :: cs => if c == ch then some cs else afterFirst ch cs

/-- The part before the first occurrence of a character
(substring(0, indexOf(ch))). -/
def beforeFirst (ch : Char) : List Char → List Char
  | [] => []
  | c :: cs => if c == ch then [] else c :: beforeFirst ch cs

/-- String::toUpperCase on one character (ASCII). -/
def charUpper (c : Char) : Char :=
  if 97 ≤ c.toNat ∧ c.toNat ≤ 122 then Char.ofNat (c.toNat - 32) else c

/-- String::toUpperCase. -/
def lcUpper (l : List Char) : List Char := l.map charUpper

/-- Lowercase hex digit, as Arduino String(x, HEX) prints. -/
def hexDigitChar (n : Nat) : Char :=
  if n < 10 then Char.ofNat (48 + n) else Char.ofNat (87 + n)

/-- Uppercase hex digit (a lowercase digit after toUpperCase). -/
def hexDigitCharUpper (n : Nat) : Char :=
  if n < 10 then Char.ofNat (48 + n) else Char.ofNat (55 + n)

/-- A byte printed as two lowercase hex digits: the leading-zero padding
for values below 0x10 plus String(x, HEX). -/
def byteHex (b : Nat) : List Char := [hexDigitChar (b / 16), hexDigitChar (b % 16)]

/-- A byte printed as two uppercase hex digits. -/
def byteHexUpper (b : Nat) : List Char :=
  [hexDigitCharUpper (b / 16), hexDigitCharUpper (b % 16)]

/-- Hex digit value of a character, lowercase or uppercase. -/
def hexCharVal (c : Char) : Option Nat :=
  if 48 ≤ c.toNat ∧ c.toNat ≤ 57 then some (c.toNat - 48)
  else if 97 ≤ c.toNat ∧ c.toNat ≤ 102 then some (c.toNat - 87)
  else if 65 ≤ c.toNat ∧ c.toNat ≤ 70 then some (c.toNat - 55)
  else none

/-- Accumulating helper of strtoul16. -/
def strtoul16Aux (acc : Nat) : List Char → Nat
  | [] => acc
  | c :: cs =>
    match hexCharVal c with
    | some v => strtoul16Aux (acc * 16 + v) cs
    | none => acc

/-- strtoul(s, NULL, 16) on a trimmed string: the value of the maximal
leading run of hex digits (0 when there is none). -/
def strtoul16 (l : List Char) : Nat := strtoul16Aux 0 l

/-- hexStringToBytes: consecutive 2-character groups parsed as bytes
(a trailing odd character is dropped, as the length/2 loop bound does). -/
def hexPairsToBytes : List Char → List Nat
  | c1 :: c2 :: rest => strtoul16 [c1, c2] :: hexPairsToBytes rest
  | _ => []

/-- A decimal digit character. -/
def decDigitChar (n : Nat) : Char := Char.ofNat (48 + n)

/-- Fuel-indexed helper of decChars; the fuel bounds the digit count, so
the recursion is structural and computable by the kernel. -/
def decCharsAux : Nat → Nat → List Char
  | 0, _ => []
  | fuel + 1, n =>
    if n < 10 then [decDigitChar n]
    else decCharsAux fuel (n / 10) ++ [decDigitChar (n % 10)]

/-- Decimal printing of a nonnegative integer, as Arduino String(n). -/
def decChars (n : Nat) : List Char := decCharsAux (n + 1) n

/-- The space-separated join used for UID strings and dump lines (a space
after every group except the last). -/
def joinSpaceSep : List (List Char) → List Char
  | [] => []
  | [x] => x
  | x :: y :: rest => x ++ ' ' :: joinSpaceSep (y :: rest)

/-- Hex digits decode back to their value. -/
theorem hexCharVal_hexDigitChar : ∀ d, d < 16 → hexCharVal (hexDigitChar d) = some d := by
  decide

/-- Uppercase hex digits decode back to their value. -/
theorem hexCharVal_hexDigitCharUpper :
    ∀ d, d < 16 → hexCharVal (hexDigitCharUpper d) = some d := by
  decide

/-- Uppercasing a lowercase hex digit gives the uppercase hex digit. -/
theorem charUpper_hexDigitChar :
    ∀ d, d < 16 → charUpper (hexDigitChar d) = hexDigitCharUpper d := by
  decide

/-- Hex digits are not whitespace, not a colon, not a bracket and not a
space. -/
theorem hexDigitChar_shape : ∀ d, d < 16 →
    isWhitespaceChar (hexDigitChar d) = false ∧ hexDigitChar d ≠ ':' ∧
    hexDigitChar d ≠ ']' ∧ hexDigitChar d ≠ ' ' := by
  decide

/-- Uppercase hex digits are not whitespace, not a colon, not a bracket
and not a space. -/
theorem hexDigitCharUpper_shape : ∀ d, d < 16 →
    isWhitespaceChar (hexDigitCharUpper d) = false ∧ hexDigitCharUpper d ≠ ':' ∧
    hexDigitCharUpper d ≠ ']' ∧ hexDigitCharUpper d ≠ ' ' := by
  decide

/-- A two-digit hex byte parses back to the byte. -/
theorem strtoul16_byteHex (b : Nat) (hb : b < 256) : strtoul16 (byteHex b) = b := by
  unfold strtoul16 byteHex strtoul16Aux
  rw [hexCharVal_hexDigitChar (b / 16) (by omega)]
  simp only []
  unfold strtoul16Aux
  rw [hexCharVal_hexDigitChar (b % 16) (by omega)]
  simp only []
  unfold strtoul16Aux
  omega

/-- A two-digit uppercase hex byte parses back to the byte. -/
theorem strtoul16_byteHexUpper (b : Nat) (hb : b < 256) : strtoul16 (byteHexUpper b) = b := by
  unfold strtoul16 byteHexUpper strtoul16Aux
  rw [hexCharVal_hexDigitCharUpper (b / 16) (by omega)]
  simp only []
  unfold strtoul16Aux
  rw [hexCharVal_hexDigitCharUpper (b % 16) (by omega)]
  simp only []
  unfold strtoul16Aux
  omega

/-- Characters of a lowercase hex byte group of a byte below 256. -/
theorem byteHex_mem_shape (b : Nat) (hb : b < 256) :
    ∀ c ∈ byteHex b, isWhitespaceChar c = false ∧ c ≠ ':' ∧ c ≠ ']' ∧ c ≠ ' ' := by
  intro c hc
  unfold byteHex at hc
  simp only [List.mem_cons, List.not_mem_nil, or_false] at hc
  rcases hc with h | h <;> subst h
  · exact hexDigitChar_shape (b / 16) (by omega)
  · exact hexDigitChar_shape (b % 16) (by omega)

/-- Characters of an uppercase hex byte group of a byte below 256. -/
theorem byteHexUpper_mem_shape (b : Nat) (hb : b < 256) :
    ∀ c ∈ byteHexUpper b, isWhitespaceChar c = false ∧ c ≠ ':' ∧ c ≠ ']' ∧ c ≠ ' ' := by
  intro c hc
  unfold byteHexUpper at hc
  simp only [List.mem_cons, List.not_mem_nil, or_false] at hc
  rcases hc with h | h <;> subst h
  · exact hexDigitCharUpper_shape (b / 16) (by omega)
  · exact hexDigitCharUpper_shape (b % 16) (by omega)

/-- A list whose first and last characters are not whitespace is unchanged
by trim. -/
theorem lcTrim_eq_self (l : List Char)
    (h1 : ∀ c, l.head? = some c → isWhitespaceChar c = false)
    (h2 : ∀ c, l.getLast? = some c → isWhitespaceChar c = false) :
    lcTrim l = l := by
  unfold lcTrim
  cases l with
  | nil => rfl
  | cons a as =>
    rw [List.dropWhile_cons, h1 a rfl]
    simp only [Bool.false_eq_true, if_false]
    rcases hrev : (a :: as).reverse with _ | ⟨c, rest⟩
    · exact absurd hrev (by simp)
    · have hc : (a :: as).getLast? = some c := by
        rw [← List.head?_reverse, hrev]
        rfl
      rw [List.dropWhile_cons, h2 c hc]
      simp only [Bool.false_eq_true, if_false]
      rw [show (c :: rest) = (a :: as).reverse from hrev.symm, List.reverse_reverse]

/-- Removing an absent character leaves the list unchanged. -/
theorem lcRemove_eq_self (ch : Char) (l : List Char) (h : ∀ c ∈ l, c ≠ ch) :
    lcRemove ch l = l := by
  unfold lcRemove
  rw [List.filter_eq_self]
  intro a ha
  simpa using h a ha

/-- Removing the separating spaces of a join of space-free groups leaves
the concatenation of the groups. -/
theorem lcRemove_space_joinSpaceSep (gs : List (List Char))
    (h : ∀ g ∈ gs, ∀ c ∈ g, c ≠ ' ') :
    lcRemove ' ' (joinSpaceSep gs) = gs.join := by
  induction gs with
  | nil => rfl
  | cons x rest ih =>
    cases rest with
    | nil =>
      show lcRemove ' ' x = x ++ []
      rw [List.append_nil]
      exact lcRemove_eq_self ' ' x (h x (by simp))
    | cons y rest2 =>
      show lcRemove ' ' (x ++ ' ' :: joinSpaceSep (y :: rest2)) = x ++ (y :: rest2).join
      unfold lcRemove
      rw [List.filter_append]
      have hx : List.filter (fun c => c != ' ') x = x := by
        rw [List.filter_eq_self]
        intro a ha
        simpa using h x (by simp) a ha
      rw [hx, List.filter_cons, if_neg (by simp)]
      have := ih (fun g hg => h g (by simp [hg]))
      unfold lcRemove at this
      rw [this]

/-- Concatenated hex byte groups parse back to the bytes. -/
theorem hexPairsToBytes_join_byteHex (bs : List Nat) (h : ∀ b ∈ bs, b < 256) :
    hexPairsToBytes ((bs.map byteHex).join) = bs := by
  induction bs with
  | nil => rfl
  | cons b rest ih =>
    have hb := h b (by simp)
    simp only [List.map_cons, List.join_cons]
    show hexPairsToBytes ([hexDigitChar (b / 16), hexDigitChar (b % 16)] ++
      (rest.map byteHex).join) = b :: rest
    simp only [List.cons_append, List.nil_append]
    unfold hexPairsToBytes
    rw [show strtoul16 [hexDigitChar (b / 16), hexDigitChar (b % 16)] = b from
      strtoul16_byteHex b hb]
    rw [ih (fun x hx => h x (by simp [hx]))]

/-- Concatenated uppercase hex byte groups parse back to the bytes. -/
theorem hexPairsToBytes_join_byteHexUpper (bs : List Nat) (h : ∀ b ∈ bs, b < 256) :
    hexPairsToBytes ((bs.map byteHexUpper).join) = bs := by
  induction bs with
  | nil => rfl
  | cons b rest ih =>
    have hb := h b (by simp)
    simp only [List.map_cons, List.join_cons]
    show hexPairsToBytes ([hexDigitCharUpper (b / 16), hexDigitCharUpper (b % 16)] ++
      (rest.map byteHexUpper).join) = b :: rest
    simp only [List.cons_append, List.nil_append]
    unfold hexPairsToBytes
    rw [show strtoul16 [hexDigitCharUpper (b / 16), hexDigitCharUpper (b % 16)] = b from
      strtoul16_byteHexUpper b hb]
    rw [ih (fun x hx => h x (by simp [hx]))]

/-- Length of concatenated lowercase hex groups. -/
theorem join_byteHex_length (bs : List Nat) : ((bs.map byteHex).join).length = 2 * bs.length := by
  induction bs with
  | nil => rfl
  | cons b rest ih =>
    simp only [List.map_cons, List.join_cons, List.length_append, ih]
    unfold byteHex
    simp
    omega

/-- Length of concatenated uppercase hex groups. -/
theorem join_byteHexUpper_length (bs : List Nat) :
    ((bs.map byteHexUpper).join).length = 2 * bs.length := by
  induction bs with
  | nil => rfl
  | cons b rest ih =>
    simp only [List.map_cons, List.join_cons, List.length_append, ih]
    unfold byteHexUpper
    simp
    omega

/-- Uppercasing a space-separated join of lowercase hex groups gives the
join of the uppercase groups. -/
theorem lcUpper_joinSpaceSep_byteHex (bs : List Nat) (h : ∀ b ∈ bs, b < 256) :
    lcUpper (joinSpaceSep (bs.map byteHex)) = joinSpaceSep (bs.map byteHexUpper) := by
  induction bs with
  | nil => rfl
  | cons b rest ih =>
    have hb := h b (by simp)
    have hgroup : lcUpper (byteHex b) = byteHexUpper b := by
      unfold lcUpper byteHex byteHexUpper
      simp only [List.map_cons, List.map_nil]
      rw [charUpper_hexDigitChar (b / 16) (by omega), charUpper_hexDigitChar (b % 16) (by omega)]
    cases rest with
    | nil =>
      show lcUpper (byteHex b) = byteHexUpper b
      exact hgroup
    | cons y rest2 =>
      show lcUpper (byteHex b ++ ' ' :: joinSpaceSep ((y :: rest2).map byteHex)) =
        byteHexUpper b ++ ' ' :: joinSpaceSep ((y :: rest2).map byteHexUpper)
      unfold lcUpper
      rw [List.map_append, List.map_cons]
      have hsp : charUpper ' ' = ' ' := by decide
      rw [hsp]
      unfold lcUpper at hgroup ih
      rw [hgroup, ih (fun x hx => h x (by simp [hx]))]

/-- Every character of a space-separated join is a space or belongs to one
of the groups. -/
theorem joinSpaceSep_mem (gs : List (List Char)) :
    ∀ c ∈ joinSpaceSep gs, c = ' ' ∨ ∃ g ∈ gs, c ∈ g := by
  induction gs with
  | nil => simp [joinSpaceSep]
  | cons x rest ih =>
    cases rest with
    | nil =>
      intro c hc
      exact Or.inr ⟨x, by simp, hc⟩
    | cons y rest2 =>
      intro c hc
      rw [show joinSpaceSep (x :: y :: rest2) = x ++ ' ' :: joinSpaceSep (y :: rest2) from rfl]
        at hc
      rcases List.mem_append.mp hc with hx | hc2
      · exact Or.inr ⟨x, by simp, hx⟩
      · rcases List.mem_cons.mp hc2 with hsp | hc3
        · exact Or.inl hsp
        · rcases ih c hc3 with hsp | ⟨g, hg, hcg⟩
          · exact Or.inl hsp
          · exact Or.inr ⟨g, by simp [hg], hcg⟩

/-- A space-separated join of nonempty groups is nonempty. -/
theorem joinSpaceSep_ne_nil (gs : List (List Char)) (hne : gs ≠ [])
    (h : ∀ g ∈ gs, g ≠ []) : joinSpaceSep gs ≠ [] := by
  cases gs with
  | nil => exact absurd rfl hne
  | cons g rest =>
    cases rest with
    | nil => exact h g (by simp)
    | cons y rest2 =>
      show g ++ ' ' :: joinSpaceSep (y :: rest2) ≠ []
      simp

/-- The last character of a space-separated join of nonempty groups is the
last character of one of the groups. -/
theorem joinSpaceSep_getLast?_mem (gs : List (List Char)) (hne : gs ≠ [])
    (h : ∀ g ∈ gs, g ≠ []) :
    ∃ g ∈ gs, (joinSpaceSep gs).getLast? = g.getLast? := by
  induction gs with
  | nil => exact absurd rfl hne
  | cons g rest ih =>
    cases rest with
    | nil => exact ⟨g, by simp, rfl⟩
    | cons y rest2 =>
      obtain ⟨g2, hg2, heq⟩ := ih (by simp) (fun x hx => h x (by simp [hx]))
      refine ⟨g2, by simp [hg2], ?_⟩
      show (g ++ ' ' :: joinSpaceSep (y :: rest2)).getLast? = g2.getLast?
      rw [List.getLast?_append]
      rcases hj : joinSpaceSep (y :: rest2) with _ | ⟨d, ds⟩
      · exact absurd hj (joinSpaceSep_ne_nil (y :: rest2) (by simp)
          (fun x hx => h x (by simp [hx])))
      · rw [show (' ' :: d :: ds).getLast? = (d :: ds).getLast? from List.getLast?_cons_cons]
        rw [← hj, heq]
        have hg2some : g2.getLast?.isSome := by
          rw [List.getLast?_isSome]
          exact h g2 (by simp [hg2])
        rcases Option.isSome_iff_exists.mp hg2some with ⟨e, he⟩
        rw [he]
        rfl

/-- A space-separated join of two-character groups with non-whitespace
characters is unchanged by trim. -/
theorem lcTrim_joinSpaceSep (gs : List (List Char)) (hne : gs ≠ [])
    (h : ∀ g ∈ gs, ∃ c1 c2, g = [c1, c2] ∧ isWhitespaceChar c1 = false ∧
      isWhitespaceChar c2 = false) :
    lcTrim (joinSpaceSep gs) = joinSpaceSep gs := by
  apply lcTrim_eq_self
  · intro c hc
    cases gs with
    | nil => exact absurd rfl hne
    | cons g rest =>
      obtain ⟨c1, c2, hg, h1, h2⟩ := h g (by simp)
      cases rest with
      | nil =>
        rw [show joinSpaceSep [g] = g from rfl, hg] at hc
        simp at hc
        exact hc ▸ h1
      | cons y rest2 =>
        rw [show joinSpaceSep (g :: y :: rest2) = g ++ ' ' :: joinSpaceSep (y :: rest2)
          from rfl, hg] at hc
        simp at hc
        exact hc ▸ h1
  · intro c hc
    obtain ⟨g2, hg2, heq⟩ := joinSpaceSep_getLast?_mem gs hne (by
      intro g hg
      obtain ⟨c1, c2, hgc, _, _⟩ := h g hg
      rw [hgc]
      simp)
    obtain ⟨c1, c2, hgc, h1, h2⟩ := h g2 hg2
    rw [heq, hgc] at hc
    simp [List.getLast?] at hc
    exact hc ▸ h2

/-! ## Mifare dump-file codec (mifare_tool.cpp lines 962-1088) -/

/-- The 16 bytes of one dump block. -/
def blockBytes (st : MifareState) (blk : Nat) : List Nat :=
  (List.range 16).map (fun i => st.dump (blk * 16 + i))

/-- The UID bytes of the handler state. -/
def uidBytes (st : MifareState) : List Nat :=
  (List.range st.uid_length).map st.uid

/-- MifareTool::uidToString (mifare_tool.cpp lines 1110-1126): padded hex
bytes, space separated, uppercased. -/
def uidToString (st : MifareState) : List Char :=
  lcUpper (joinSpaceSep ((uidBytes st).map byteHex))

/-- One memory line of writeFileFormat (mifare_tool.cpp lines 994-1008):
the Page prefix, the decimal block number, a colon and space, then the 16
block bytes as two lowercase hex digits each, separated by single
spaces. -/
def pageLine (blk : Nat) (bytes : List Nat) : List Char :=
  "Page ".toList ++ decChars blk ++ ": ".toList ++ joinSpaceSep (bytes.map byteHex)

/-- MifareTool::writeFileFormat (mifare_tool.cpp lines 962-1012), as the
list of lines it prints. -/
def writeFileFormat (st : MifareState) : List (List Char) :=
  ["Filetype: Mifare Classic File".toList,
   "Version 1".toList,
   "Device type: ".toList ++ (cardTypeToString st.card_type).toList,
   "# UID, ATQA and SAK are common for all formats".toList,
   "UID: ".toList ++ uidToString st,
   "SAK: ".toList ++ byteHex st.sak,
   "ATQA: ".toList ++ byteHex st.atqa1 ++ ' ' :: byteHex st.atqa0,
   "# Memory dump".toList,
   "Pages total: ".toList ++ decChars st.total_blocks] ++
  (if st.blocks_read < st.total_blocks then ["Pages read: ".toList ++ decChars st.blocks_read]
   else []) ++
  (List.range st.blocks_read).map (fun blk => pageLine blk (blockBytes st blk))

/-- The Device type field: substring(13) then trim
(mifare_tool.cpp lines 1026-1027). -/
def deviceTypeField (line : List Char) : List Char := lcTrim (line.drop 13)

/-- The UID field: substring(5), trim, remove spaces and colons
(mifare_tool.cpp lines 1039-1042). -/
def uidField (line : List Char) : List Char :=
  lcRemove ':' (lcRemove ' ' (lcTrim (line.drop 5)))

/-- The SAK field: substring(5) then trim (mifare_tool.cpp lines 1051-1052). -/
def sakField (line : List Char) : List Char := lcTrim (line.drop 5)

/-- The ATQA field: substring(6), trim, remove spaces
(mifare_tool.cpp lines 1059-1061). -/
def atqaField (line : List Char) : List Char := lcRemove ' ' (lcTrim (line.drop 6))

/-- The Page data field: the part after the colon, trimmed, spaces removed
(mifare_tool.cpp lines 1070-1072). -/
def pageDataField (rest : List Char) : List Char := lcRemove ' ' (lcTrim rest)

/-- One iteration of the parseFileFormat line loop
(mifare_tool.cpp lines 1020-1081), on an already-trimmed line.  The
colon_pos > 0 guard of the Page branch is afterFirst returning some: a
line in that branch starts with the character P, so a colon can never sit
at position 0. -/
def parseFileLine (st : MifareState) (line : List Char) : MifareState :=
  if lcStartsWith line ("Device type:".toList) then
    if lcContainsSub ("1K".toList) (deviceTypeField line) then
      { st with card_type := CardType.mifare1K }
    else if lcContainsSub ("4K".toList) (deviceTypeField line) then
      { st with card_type := CardType.mifare4K }
    else st
  else if lcStartsWith line ("UID:".toList) then
    { st with
      uid_length := (uidField line).length / 2,
      uid := fun i =>
        if i < min ((uidField line).length / 2) 10 then
          (hexPairsToBytes (uidField line)).getD i 0
        else st.uid i }
  else if lcStartsWith line ("SAK:".toList) then
    { st with sak := strtoul16 (sakField line) }
  else if lcStartsWith line ("ATQA:".toList) then
    { st with
      atqa0 := if 1 ≤ min ((atqaField line).length / 2) 2 then
          (hexPairsToBytes (atqaField line)).getD 0 0
        else st.atqa0,
      atqa1 := if 2 ≤ min ((atqaField line).length / 2) 2 then
          (hexPairsToBytes (atqaField line)).getD 1 0
        else st.atqa1 }
  else if lcStartsWith line ("Page ".toList) then
    match afterFirst ':' line with
    | some rest =>
      if (pageDataField rest).length = 32 then
        { st with
          dump := fun i =>
            if st.blocks_read * 16 ≤ i ∧ i < st.blocks_read * 16 + 16 then
              (hexPairsToBytes (pageDataField rest)).getD (i - st.blocks_read * 16) 0
            else st.dump i,
          blocks_read := st.blocks_read + 1 }
      else st
    | none => st
  else st

/-- The parse loop over all lines of the file; each raw line is trimmed
first (mifare_tool.cpp lines 1020-1022). -/
def parseLinesFold (st : MifareState) : List (List Char) → MifareState
  | [] => st
  | line :: rest => parseLinesFold (parseFileLine st (lcTrim line)) rest

/-- MifareTool::parseFileFormat (mifare_tool.cpp lines 1014-1088):
blocks_read restarts at zero, the lines are folded, the total block count
is then derived from the parsed card type, and the parse succeeds when at
least one Page line was stored. -/
def parseFileFormat (st : MifareState) (lines : List (List Char)) : Bool × MifareState :=
  (0 < (parseLinesFold { st with blocks_read := 0 } lines).blocks_read,
   { parseLinesFold { st with blocks_read := 0 } lines with
     total_blocks :=
       if (parseLinesFold { st with blocks_read := 0 } lines).card_type = CardType.mifare1K
       then MIFARE_1K_BLOCKS else MIFARE_4K_BLOCKS })

/-- C9 counterexample: in the saved file of a 1K state holding a zeroed
dump, the memory line of page 0 is the Page prefix followed by the 16
bytes as space-separated two-digit groups — not by 32 contiguous hex
characters as the claim states. -/
theorem page_line_format_counterexample :
    pageLine 0 (List.replicate 16 0) =
      ("Page 0: 00 00 00 00 00 00 00 00 00 00 00 00 00 00 00 00").toList ∧
    pageLine 0 (List.replicate 16 0) ≠
      ("Page 0: 00000000000000000000000000000000").toList ∧
    pageLine 0 (blockBytes sampleState 0) ∈ writeFileFormat sampleState := by
  refine ⟨by decide, by decide, ?_⟩
  unfold writeFileFormat
  simp only [List.mem_append, List.mem_map]
  exact Or.inr ⟨0, by simp [sampleState], rfl⟩

/-- C9 as amended: every memory line of a saved dump is the text Page N
followed by a colon and space and then the 16 block bytes, each printed as
exactly two lowercase hexadecimal characters, with a single space between
consecutive bytes (47 characters holding 32 hex characters in total, with
no separator inside a byte). -/
theorem page_line_format (st : MifareState) (blk : Nat)
    (hblk : blk < st.blocks_read)
    (hbytes : ∀ i, i < 16 → st.dump (blk * 16 + i) < 256) :
    pageLine blk (blockBytes st blk) ∈ writeFileFormat st ∧
    pageLine blk (blockBytes st blk) =
      "Page ".toList ++ decChars blk ++ ": ".toList ++
        joinSpaceSep ((blockBytes st blk).map byteHex) ∧
    (joinSpaceSep ((blockBytes st blk).map byteHex)).length = 47 ∧
    ((joinSpaceSep ((blockBytes st blk).map byteHex)).filter
      (fun c => c != ' ')).length = 32 ∧
    ∀ c ∈ joinSpaceSep ((blockBytes st blk).map byteHex),
      c = ' ' ∨ (hexCharVal c).isSome = true := by
  have hmem : ∀ b ∈ blockBytes st blk, b < 256 := by
    intro b hb
    unfold blockBytes at hb
    simp only [List.mem_map, List.mem_range] at hb
    obtain ⟨i, hi, hbi⟩ := hb
    exact hbi ▸ hbytes i hi
  have hlen16 : (blockBytes st blk).length = 16 := by
    unfold blockBytes
    simp
  have hjlen : ∀ (bs : List Nat), bs ≠ [] →
      (joinSpaceSep (bs.map byteHex)).length = 3 * bs.length - 1 := by
    intro bs
    induction bs with
    | nil => intro hne; exact absurd rfl hne
    | cons b rest ih =>
      intro _
      cases rest with
      | nil =>
        show (byteHex b).length = 3 * 1 - 1
        rfl
      | cons y rest2 =>
        show (byteHex b ++ ' ' :: joinSpaceSep ((y :: rest2).map byteHex)).length =
          3 * (b :: y :: rest2).length - 1
        rw [List.length_append, show (byteHex b).length = 2 from rfl, List.length_cons,
          ih (by simp)]
        simp only [List.length_cons]
        omega
  have hfilter : lcRemove ' ' (joinSpaceSep ((blockBytes st blk).map byteHex)) =
      ((blockBytes st blk).map byteHex).join := by
    apply lcRemove_space_joinSpaceSep
    intro g hg c hc
    simp only [List.mem_map] at hg
    obtain ⟨b, hb, hgb⟩ := hg
    exact ((byteHex_mem_shape b (hmem b hb) c (hgb ▸ hc)).2.2).2
  refine ⟨?_, rfl, ?_, ?_, ?_⟩
  · unfold writeFileFormat
    simp only [List.mem_append, List.mem_map]
    exact Or.inr ⟨blk, by simp [hblk], rfl⟩
  · rw [hjlen (blockBytes st blk) (by rw [← List.length_pos]; omega)]
    omega
  · show (lcRemove ' ' (joinSpaceSep ((blockBytes st blk).map byteHex))).length = 32
    rw [hfilter, join_byteHex_length, hlen16]
  · intro c hc
    rcases joinSpaceSep_mem ((blockBytes st blk).map byteHex) c hc with hsp | ⟨g, hg, hcg⟩
    · exact Or.inl hsp
    · right
      simp only [List.mem_map] at hg
      obtain ⟨b, hb, hgb⟩ := hg
      have hb256 := hmem b hb
      rw [← hgb] at hcg
      unfold byteHex at hcg
      simp only [List.mem_cons, List.not_mem_nil, or_false] at hcg
      rcases hcg with h | h <;> subst h
      · rw [hexCharVal_hexDigitChar (b / 16) (by omega)]
        rfl
      · rw [hexCharVal_hexDigitChar (b % 16) (by omega)]
        rfl

/-- Every character of a printed decimal number is a decimal digit
character. -/
theorem decCharsAux_digits (fuel : Nat) :
    ∀ n, ∀ c ∈ decCharsAux fuel n, ∃ d, d < 10 ∧ c = decDigitChar d := by
  induction fuel with
  | zero =>
    intro n c hc
    simp [decCharsAux] at hc
  | succ fuel ih =>
    intro n c hc
    unfold decCharsAux at hc
    by_cases h : n < 10
    · rw [if_pos h] at hc
      simp at hc
      exact ⟨n, h, hc⟩
    · rw [if_neg h] at hc
      rcases List.mem_append.mp hc with h1 | h2
      · exact ih (n / 10) c h1
      · simp at h2
        exact ⟨n % 10, by omega, h2⟩

/-- Decimal digit characters are not whitespace, not a colon, not a
bracket, not a space, and are valid hex digits. -/
theorem decDigitChar_shape : ∀ d, d < 10 →
    isWhitespaceChar (decDigitChar d) = false ∧ decDigitChar d ≠ ':' ∧
    decDigitChar d ≠ ']' ∧ decDigitChar d ≠ ' ' ∧
    (hexCharVal (decDigitChar d)).isSome = true := by
  decide

/-- A printed decimal number is never empty. -/
theorem decChars_ne_nil (n : Nat) : decChars n ≠ [] := by
  unfold decChars decCharsAux
  by_cases h : n < 10
  · rw [if_pos h]
    simp
  · rw [if_neg h]
    simp

/-- A line made of a prefix with a non-whitespace first character followed
by a space-separated join of two-character groups of non-whitespace
characters is unchanged by trim. -/
theorem lcTrim_prefix_join (pre : List Char) (gs : List (List Char))
    (hpre : ∀ c, pre.head? = some c → isWhitespaceChar c = false)
    (hpre_ne : pre ≠ []) (hgs_ne : gs ≠ [])
    (h : ∀ g ∈ gs, ∃ c1 c2, g = [c1, c2] ∧ isWhitespaceChar c1 = false ∧
      isWhitespaceChar c2 = false) :
    lcTrim (pre ++ joinSpaceSep gs) = pre ++ joinSpaceSep gs := by
  apply lcTrim_eq_self
  · intro c hc
    cases pre with
    | nil => exact absurd rfl hpre_ne
    | cons a as =>
      simp at hc
      subst hc
      exact hpre a rfl
  · intro c hc
    rw [List.getLast?_append] at hc
    obtain ⟨g2, hg2, heq⟩ := joinSpaceSep_getLast?_mem gs hgs_ne (by
      intro g hg
      obtain ⟨c1, c2, hgc, _, _⟩ := h g hg
      rw [hgc]
      simp)
    obtain ⟨c1, c2, hgc, h1, h2⟩ := h g2 hg2
    rw [heq, hgc] at hc
    simp [List.getLast?] at hc
    exact hc ▸ h2

/-- A line made of a prefix with a non-whitespace first character followed
by a decimal number is unchanged by trim. -/
theorem lcTrim_prefix_dec (pre : List Char) (n : Nat)
    (hpre : ∀ c, pre.head? = some c → isWhitespaceChar c = false)
    (hpre_ne : pre ≠ []) :
    lcTrim (pre ++ decChars n) = pre ++ decChars n := by
  apply lcTrim_eq_self
  · intro c hc
    cases pre with
    | nil => exact absurd rfl hpre_ne
    | cons a as =>
      simp at hc
      subst hc
      exact hpre a rfl
  · intro c hc
    rw [List.getLast?_append] at hc
    rcases hlast : (decChars n).getLast? with _ | d
    · rw [List.getLast?_eq_none_iff] at hlast
      exact absurd hlast (decChars_ne_nil n)
    · rw [hlast] at hc
      simp at hc
      have hd : d ∈ decChars n := by
        obtain ⟨hne', hdl⟩ := List.mem_getLast?_eq_getLast (Option.mem_def.mpr hlast)
        rw [hdl]
        exact List.getLast_mem hne'
      obtain ⟨e, he, hce⟩ := decCharsAux_digits (n + 1) n d hd
      subst hc
      rw [hce]
      exact (decDigitChar_shape e he).1

/-- Unfolding equation of afterFirst on a non-empty list. -/
theorem afterFirst_cons (ch c : Char) (cs : List Char) :
    afterFirst ch (c :: cs) = if c == ch then some cs else afterFirst ch cs := rfl

/-- afterFirst skips a prefix free of the searched character. -/
theorem afterFirst_append (ch : Char) (l1 l2 : List Char) (h : ∀ c ∈ l1, c ≠ ch) :
    afterFirst ch (l1 ++ l2) = afterFirst ch l2 := by
  induction l1 with
  | nil => rfl
  | cons c cs ih =>
    rw [List.cons_append, afterFirst_cons,
      if_neg (by simp only [beq_iff_eq]; exact h c (by simp))]
    exact ih (fun x hx => h x (by simp [hx]))

/-- Trimming drops a leading space. -/
theorem lcTrim_space_cons (l : List Char) : lcTrim (' ' :: l) = lcTrim l := by
  unfold lcTrim
  rw [List.dropWhile_cons, if_pos (by decide)]

/-- The two-character non-whitespace group shape of lowercase hex bytes. -/
theorem byteHex_group_shape (bs : List Nat) (h : ∀ b ∈ bs, b < 256) :
    ∀ g ∈ bs.map byteHex, ∃ c1 c2, g = [c1, c2] ∧ isWhitespaceChar c1 = false ∧
      isWhitespaceChar c2 = false := by
  intro g hg
  simp only [List.mem_map] at hg
  obtain ⟨b, hb, hgb⟩ := hg
  refine ⟨hexDigitChar (b / 16), hexDigitChar (b % 16), hgb.symm, ?_, ?_⟩
  · exact (hexDigitChar_shape (b / 16) (by have := h b hb; omega)).1
  · exact (hexDigitChar_shape (b % 16) (by have := h b hb; omega)).1

/-- The two-character non-whitespace group shape of uppercase hex bytes. -/
theorem byteHexUpper_group_shape (bs : List Nat) (h : ∀ b ∈ bs, b < 256) :
    ∀ g ∈ bs.map byteHexUpper, ∃ c1 c2, g = [c1, c2] ∧ isWhitespaceChar c1 = false ∧
      isWhitespaceChar c2 = false := by
  intro g hg
  simp only [List.mem_map] at hg
  obtain ⟨b, hb, hgb⟩ := hg
  refine ⟨hexDigitCharUpper (b / 16), hexDigitCharUpper (b % 16), hgb.symm, ?_, ?_⟩
  · exact (hexDigitCharUpper_shape (b / 16) (by have := h b hb; omega)).1
  · exact (hexDigitCharUpper_shape (b % 16) (by have := h b hb; omega)).1

/-- Parsing the written UID line sets the UID length and bytes from the
line and touches nothing else. -/
theorem parse_uid_line (st : MifareState) (bs : List Nat) (hne : bs ≠ [])
    (hlen : bs.length ≤ 10) (h : ∀ b ∈ bs, b < 256) :
    parseFileLine st (lcTrim ("UID: ".toList ++ lcUpper (joinSpaceSep (bs.map byteHex)))) =
      { st with
        uid_length := bs.length,
        uid := fun i => if i < bs.length then bs.getD i 0 else st.uid i } := by
  have hgroups := byteHexUpper_group_shape bs h
  rw [lcUpper_joinSpaceSep_byteHex bs h]
  rw [lcTrim_prefix_join "UID: ".toList (bs.map byteHexUpper)
    (fun c hc => by simp at hc; subst hc; decide) (by simp)
    (by simpa using hne) hgroups]
  have hfield : uidField ("UID: ".toList ++ joinSpaceSep (bs.map byteHexUpper)) =
      (bs.map byteHexUpper).join := by
    unfold uidField
    rw [show (5 : Nat) = ("UID: ".toList).length from rfl, List.drop_left]
    rw [lcTrim_joinSpaceSep (bs.map byteHexUpper) (by simpa using hne) hgroups]
    rw [lcRemove_space_joinSpaceSep (bs.map byteHexUpper) (by
      intro g hg c hc
      obtain ⟨b, hb, hgb⟩ := List.mem_map.mp hg
      exact ((byteHexUpper_mem_shape b (h b hb) c (hgb ▸ hc)).2.2).2)]
    apply lcRemove_eq_self
    intro c hc
    obtain ⟨g, hg, hcg⟩ := List.mem_join.mp hc
    obtain ⟨b, hb, hgb⟩ := List.mem_map.mp hg
    exact ((byteHexUpper_mem_shape b (h b hb) c (hgb ▸ hcg)).2.1)
  unfold parseFileLine
  rw [if_neg (by simp [lcStartsWith]), if_pos (by simp [lcStartsWith])]
  simp only [hfield, hexPairsToBytes_join_byteHexUpper bs h, join_byteHexUpper_length]
  have h2 : 2 * bs.length / 2 = bs.length := by omega
  rw [h2]
  have hmin : min bs.length 10 = bs.length := Nat.min_eq_left hlen
  rw [hmin]

/-- Parsing the written SAK line restores the SAK byte and touches nothing
else. -/
theorem parse_sak_line (st : MifareState) (b : Nat) (hb : b < 256) :
    parseFileLine st (lcTrim ("SAK: ".toList ++ byteHex b)) = { st with sak := b } := by
  have hgroups := byteHex_group_shape [b] (by simpa using hb)
  rw [show ("SAK: ".toList ++ byteHex b) =
    ("SAK: ".toList ++ joinSpaceSep ([b].map byteHex)) from rfl]
  rw [lcTrim_prefix_join "SAK: ".toList ([b].map byteHex)
    (fun c hc => by simp at hc; subst hc; decide) (by simp) (by simp) hgroups]
  have hfield : sakField ("SAK: ".toList ++ joinSpaceSep ([b].map byteHex)) = byteHex b := by
    unfold sakField
    rw [show (5 : Nat) = ("SAK: ".toList).length from rfl, List.drop_left]
    rw [lcTrim_joinSpaceSep ([b].map byteHex) (by simp) hgroups]
    rfl
  unfold parseFileLine
  rw [if_neg (by simp [lcStartsWith]), if_neg (by simp [lcStartsWith]),
    if_pos (by simp [lcStartsWith])]
  rw [hfield, strtoul16_byteHex b hb]

/-- Parsing the written ATQA line stores the first printed byte into
atqa0 and the second into atqa1 — which swaps the pair, because
writeFileFormat prints atqa1 before atqa0. -/
theorem parse_atqa_line (st : MifareState) (a1 a0 : Nat) (ha1 : a1 < 256) (ha0 : a0 < 256) :
    parseFileLine st (lcTrim ("ATQA: ".toList ++ byteHex a1 ++ ' ' :: byteHex a0)) =
      { st with atqa0 := a1, atqa1 := a0 } := by
  have hall : ∀ b ∈ [a1, a0], b < 256 := by
    intro b hb
    simp at hb
    rcases hb with h | h <;> subst h <;> assumption
  have hgroups := byteHex_group_shape [a1, a0] hall
  rw [show ("ATQA: ".toList ++ byteHex a1 ++ ' ' :: byteHex a0) =
    ("ATQA: ".toList ++ joinSpaceSep ([a1, a0].map byteHex)) from rfl]
  rw [lcTrim_prefix_join "ATQA: ".toList ([a1, a0].map byteHex)
    (fun c hc => by simp at hc; subst hc; decide) (by simp) (by simp) hgroups]
  have hfield : atqaField ("ATQA: ".toList ++ joinSpaceSep ([a1, a0].map byteHex)) =
      ([a1, a0].map byteHex).join := by
    unfold atqaField
    rw [show (6 : Nat) = ("ATQA: ".toList).length from rfl, List.drop_left]
    rw [lcTrim_joinSpaceSep ([a1, a0].map byteHex) (by simp) hgroups]
    apply lcRemove_space_joinSpaceSep
    intro g hg c hc
    obtain ⟨b, hb, hgb⟩ := List.mem_map.mp hg
    exact ((byteHex_mem_shape b (hall b hb) c (hgb ▸ hc)).2.2).2
  unfold parseFileLine
  rw [if_neg (by simp [lcStartsWith]), if_neg (by simp [lcStartsWith]),
    if_neg (by simp [lcStartsWith]), if_pos (by simp [lcStartsWith])]
  simp only [hfield, hexPairsToBytes_join_byteHex [a1, a0] hall, join_byteHex_length]
  norm_num

/-- A byte of a block read from the dump. -/
theorem blockBytes_getD (src : MifareState) (blk j : Nat) (hj : j < 16) :
    (blockBytes src blk).getD j 0 = src.dump (blk * 16 + j) := by
  unfold blockBytes
  rw [List.getD_eq_getElem?_getD]
  simp [List.getElem?_map, List.getElem?_range, hj]

/-- A byte of the UID list read from the handler state. -/
theorem uidBytes_getD (src : MifareState) (j : Nat) (hj : j < src.uid_length) :
    (uidBytes src).getD j 0 = src.uid j := by
  unfold uidBytes
  rw [List.getD_eq_getElem?_getD]
  simp [List.getElem?_map, List.getElem?_range, hj]

/-- Parsing a written Page line stores its 16 bytes at the running block
position and advances the block counter; no other field changes. -/
theorem parse_page_line (st : MifareState) (blk : Nat) (bytes : List Nat)
    (hlen : bytes.length = 16) (h : ∀ b ∈ bytes, b < 256) :
    parseFileLine st (lcTrim (pageLine blk bytes)) =
      { st with
        dump := fun i => if st.blocks_read * 16 ≤ i ∧ i < st.blocks_read * 16 + 16 then
            bytes.getD (i - st.blocks_read * 16) 0 else st.dump i,
        blocks_read := st.blocks_read + 1 } := by
  have hgroups := byteHex_group_shape bytes h
  have hbne : bytes ≠ [] := by
    rw [← List.length_pos]
    omega
  have hassoc : pageLine blk bytes =
      ("Page ".toList ++ decChars blk ++ ": ".toList) ++ joinSpaceSep (bytes.map byteHex) := by
    unfold pageLine
    simp [List.append_assoc]
  rw [hassoc]
  rw [lcTrim_prefix_join ("Page ".toList ++ decChars blk ++ ": ".toList)
    (bytes.map byteHex)
    (fun c hc => by simp at hc; subst hc; decide) (by simp)
    (by simpa using hbne) hgroups]
  have hafter : afterFirst ':'
      (("Page ".toList ++ decChars blk ++ ": ".toList) ++ joinSpaceSep (bytes.map byteHex)) =
      some (' ' :: joinSpaceSep (bytes.map byteHex)) := by
    have h1 : ("Page ".toList ++ decChars blk ++ ": ".toList) ++
        joinSpaceSep (bytes.map byteHex) =
        ("Page ".toList ++ decChars blk) ++
          (':' :: ' ' :: joinSpaceSep (bytes.map byteHex)) := by
      simp [List.append_assoc]
    rw [h1, afterFirst_append ':' _ _ ?_]
    · rw [afterFirst_cons, if_pos (by decide)]
    · intro c hc
      rcases List.mem_append.mp hc with hc1 | hc2
      · simp at hc1
        rcases hc1 with h5 | h5 | h5 | h5 | h5 <;> subst h5 <;> decide
      · obtain ⟨e, he, hce⟩ := decCharsAux_digits (blk + 1) blk c hc2
        rw [hce]
        exact (decDigitChar_shape e he).2.1
  have hdata : pageDataField (' ' :: joinSpaceSep (bytes.map byteHex)) =
      (bytes.map byteHex).join := by
    unfold pageDataField
    rw [lcTrim_space_cons, lcTrim_joinSpaceSep (bytes.map byteHex) (by simpa using hbne) hgroups]
    apply lcRemove_space_joinSpaceSep
    intro g hg c hc
    obtain ⟨b, hb, hgb⟩ := List.mem_map.mp hg
    exact ((byteHex_mem_shape b (h b hb) c (hgb ▸ hc)).2.2).2
  unfold parseFileLine
  rw [if_neg (by simp [lcStartsWith]), if_neg (by simp [lcStartsWith]),
    if_neg (by simp [lcStartsWith]), if_neg (by simp [lcStartsWith]),
    if_pos (by simp [lcStartsWith])]
  simp only [hafter]
  rw [if_pos (by rw [hdata, join_byteHex_length, hlen])]
  simp only [hdata, hexPairsToBytes_join_byteHex bytes h]

/-- The Pages total header line changes nothing in the parse state. -/
theorem parse_pages_total_line (st : MifareState) (n : Nat) :
    parseFileLine st (lcTrim ("Pages total: ".toList ++ decChars n)) = st := by
  rw [lcTrim_prefix_dec "Pages total: ".toList n
    (fun c hc => by simp at hc; subst hc; decide) (by simp)]
  unfold parseFileLine
  rw [if_neg (by simp [lcStartsWith]), if_neg (by simp [lcStartsWith]),
    if_neg (by simp [lcStartsWith]), if_neg (by simp [lcStartsWith]),
    if_neg (by simp [lcStartsWith])]

/-- The optional Pages read header line changes nothing in the parse
state. -/
theorem parse_pages_read_line (st : MifareState) (n : Nat) :
    parseFileLine st (lcTrim ("Pages read: ".toList ++ decChars n)) = st := by
  rw [lcTrim_prefix_dec "Pages read: ".toList n
    (fun c hc => by simp at hc; subst hc; decide) (by simp)]
  unfold parseFileLine
  rw [if_neg (by simp [lcStartsWith]), if_neg (by simp [lcStartsWith]),
    if_neg (by simp [lcStartsWith]), if_neg (by simp [lcStartsWith]),
    if_neg (by simp [lcStartsWith])]

/-- Parsing the written Device type line restores the card type, for the
two real card types. -/
theorem parse_device_line (st : MifareState) (ct : CardType)
    (hct : ct = CardType.mifare1K ∨ ct = CardType.mifare4K) :
    parseFileLine st (lcTrim ("Device type: ".toList ++ (cardTypeToString ct).toList)) =
      { st with card_type := ct } := by
  rcases hct with h | h <;> subst h <;> rfl

/-- The Filetype header line changes nothing in the parse state. -/
theorem parse_filetype_line (st : MifareState) :
    parseFileLine st (lcTrim ("Filetype: Mifare Classic File".toList)) = st := rfl

/-- The Version header line changes nothing in the parse state. -/
theorem parse_version_line (st : MifareState) :
    parseFileLine st (lcTrim ("Version 1".toList)) = st := rfl

/-- The UID comment line changes nothing in the parse state. -/
theorem parse_uid_comment_line (st : MifareState) :
    parseFileLine st
      (lcTrim ("# UID, ATQA and SAK are common for all formats".toList)) = st := rfl

/-- The memory dump comment line changes nothing in the parse state. -/
theorem parse_memory_comment_line (st : MifareState) :
    parseFileLine st (lcTrim ("# Memory dump".toList)) = st := rfl

/-- Unfolding equation of the parse loop. -/
theorem parseLinesFold_cons (st : MifareState) (line : List Char) (rest : List (List Char)) :
    parseLinesFold st (line :: rest) = parseLinesFold (parseFileLine st (lcTrim line)) rest := rfl

/-- The parse loop splits over list append. -/
theorem parseLinesFold_append (st : MifareState) (l1 l2 : List (List Char)) :
    parseLinesFold st (l1 ++ l2) = parseLinesFold (parseLinesFold st l1) l2 := by
  induction l1 generalizing st with
  | nil => rfl
  | cons x xs ih =>
    rw [List.cons_append, parseLinesFold_cons, parseLinesFold_cons]
    exact ih _

/-- Folding the written Page lines for blocks k..k+m-1 over a parse state
whose running block counter equals k stores exactly those dump bytes and
advances the counter to k+m. -/
theorem parse_pages_fold (src : MifareState) (m : Nat) :
    ∀ (k : Nat) (stA : MifareState), stA.blocks_read = k →
    (∀ i, i < (k + m) * 16 → src.dump i < 256) →
    parseLinesFold stA ((List.range' k m).map (fun blk => pageLine blk (blockBytes src blk))) =
      { stA with
        blocks_read := k + m,
        dump := fun i => if k * 16 ≤ i ∧ i < (k + m) * 16 then src.dump i else stA.dump i } := by
  induction m with
  | zero =>
    intro k stA hk _
    show stA = _
    have hdump : (fun i => if k * 16 ≤ i ∧ i < (k + 0) * 16 then src.dump i else stA.dump i) =
        stA.dump := by
      funext i
      rw [if_neg (by omega)]
    rw [hdump, show k + 0 = k from rfl, ← hk]
  | succ m ih =>
    intro k stA hk hdump
    rw [List.range'_succ, List.map_cons, parseLinesFold_cons]
    have hbytes : ∀ b ∈ blockBytes src k, b < 256 := by
      intro b hb
      obtain ⟨j, hj, hbj⟩ := List.mem_map.mp hb
      rw [List.mem_range] at hj
      exact hbj ▸ hdump (k * 16 + j) (by omega)
    rw [parse_page_line stA k (blockBytes src k) (by simp [blockBytes]) hbytes, hk]
    rw [ih (k + 1)
      { stA with
        blocks_read := k + 1,
        dump := fun i => if k * 16 ≤ i ∧ i < k * 16 + 16 then
          (blockBytes src k).getD (i - k * 16) 0 else stA.dump i }
      rfl (fun i hi => hdump i (by omega))]
    ext i <;> try rfl
    · show k + 1 + m = k + (m + 1)
      omega
    · show (if (k + 1) * 16 ≤ i ∧ i < (k + 1 + m) * 16 then src.dump i
        else if k * 16 ≤ i ∧ i < k * 16 + 16 then (blockBytes src k).getD (i - k * 16) 0
        else stA.dump i) =
        (if k * 16 ≤ i ∧ i < (k + (m + 1)) * 16 then src.dump i else stA.dump i)
      by_cases h1 : (k + 1) * 16 ≤ i ∧ i < (k + 1 + m) * 16
      · rw [if_pos h1, if_pos (by omega)]
      · rw [if_neg h1]
        by_cases h2 : k * 16 ≤ i ∧ i < k * 16 + 16
        · rw [if_pos h2, if_pos (by omega), blockBytes_getD src k (i - k * 16) (by omega)]
          congr 1
          omega
        · rw [if_neg h2, if_neg (by omega)]

/-- Unfolding equation of the parse loop on the empty file. -/
theorem parseLinesFold_nil (st : MifareState) : parseLinesFold st [] = st := rfl

/-- The optional Pages read segment of the written file never changes the
parse state. -/
theorem parse_pages_read_opt (st : MifareState) (c : Prop) [h : Decidable c] (n : Nat) :
    parseLinesFold st (if c then ["Pages read: ".toList ++ decChars n] else []) = st := by
  by_cases hc : c
  · rw [if_pos hc, parseLinesFold_cons, parse_pages_read_line, parseLinesFold_nil]
  · rw [if_neg hc, parseLinesFold_nil]

/-- Folding every line of the written file over the reset parse state
recovers the source handler state — except that the two ATQA bytes come
back swapped. -/
theorem parseLinesFold_writeFileFormat (src st0 : MifareState)
    (hct : src.card_type = CardType.mifare1K ∨ src.card_type = CardType.mifare4K)
    (hul : 1 ≤ src.uid_length) (huh : src.uid_length ≤ 10)
    (huid : ∀ i, i < src.uid_length → src.uid i < 256)
    (hsak : src.sak < 256) (ha0 : src.atqa0 < 256) (ha1 : src.atqa1 < 256)
    (hdump : ∀ i, i < src.blocks_read * 16 → src.dump i < 256) :
    parseLinesFold { st0 with blocks_read := 0 } (writeFileFormat src) =
      { st0 with
        card_type := src.card_type,
        blocks_read := src.blocks_read,
        uid_length := src.uid_length,
        uid := fun i => if i < src.uid_length then src.uid i else st0.uid i,
        sak := src.sak,
        atqa0 := src.atqa1,
        atqa1 := src.atqa0,
        dump := fun i => if i < src.blocks_read * 16 then src.dump i else st0.dump i } := by
  have hbs_len : (uidBytes src).length = src.uid_length := by simp [uidBytes]
  have hbs_ne : uidBytes src ≠ [] := by
    intro h
    rw [h] at hbs_len
    simp at hbs_len
    omega
  have hbs_mem : ∀ b ∈ uidBytes src, b < 256 := by
    intro b hb
    obtain ⟨i, hi, hbi⟩ := List.mem_map.mp hb
    rw [List.mem_range] at hi
    exact hbi ▸ huid i hi
  unfold writeFileFormat uidToString
  rw [parseLinesFold_append, parseLinesFold_append]
  rw [parseLinesFold_cons, parse_filetype_line,
      parseLinesFold_cons, parse_version_line,
      parseLinesFold_cons, parse_device_line _ _ hct,
      parseLinesFold_cons, parse_uid_comment_line,
      parseLinesFold_cons,
      parse_uid_line _ _ hbs_ne (by rw [hbs_len]; exact huh) hbs_mem,
      parseLinesFold_cons, parse_sak_line _ _ hsak,
      parseLinesFold_cons, parse_atqa_line _ _ _ ha1 ha0,
      parseLinesFold_cons, parse_memory_comment_line,
      parseLinesFold_cons, parse_pages_total_line,
      parseLinesFold_nil]
  rw [parse_pages_read_opt]
  rw [List.range_eq_range', parse_pages_fold src src.blocks_read]
  · ext i <;> try rfl
    · show 0 + src.blocks_read = src.blocks_read
      omega
    · exact hbs_len
    · show (if i < (uidBytes src).length then (uidBytes src).getD i 0
          else st0.uid i) =
        (if i < src.uid_length then src.uid i else st0.uid i)
      rw [hbs_len]
      by_cases h : i < src.uid_length
      · rw [if_pos h, if_pos h, uidBytes_getD src i h]
      · rw [if_neg h, if_neg h]
    · show (if 0 * 16 ≤ i ∧ i < (0 + src.blocks_read) * 16 then src.dump i
          else st0.dump i) =
        (if i < src.blocks_read * 16 then src.dump i else st0.dump i)
      by_cases h : i < src.blocks_read * 16
      · rw [if_pos (show 0 * 16 ≤ i ∧ i < (0 + src.blocks_read) * 16 by omega), if_pos h]
      · rw [if_neg (show ¬(0 * 16 ≤ i ∧ i < (0 + src.blocks_read) * 16) by omega), if_neg h]
  · rfl
  · intro i hi
    exact hdump i (by omega)

/-- Every field of the state parsed back from the written file, stated as
projections of parseFileFormat: parsing succeeds and restores the card
type, the total block count, the UID, the SAK, the block counter and the
read dump bytes — while the ATQA bytes come back swapped. -/
theorem parseFileFormat_writeFileFormat (src st0 : MifareState)
    (hct : src.card_type = CardType.mifare1K ∨ src.card_type = CardType.mifare4K)
    (hul : 1 ≤ src.uid_length) (huh : src.uid_length ≤ 10)
    (huid : ∀ i, i < src.uid_length → src.uid i < 256)
    (hsak : src.sak < 256) (ha0 : src.atqa0 < 256) (ha1 : src.atqa1 < 256)
    (hbr : 1 ≤ src.blocks_read)
    (hdump : ∀ i, i < src.blocks_read * 16 → src.dump i < 256)
    (htb : src.total_blocks = totalBlocksOf src.card_type) :
    (parseFileFormat st0 (writeFileFormat src)).1 = true ∧
    (parseFileFormat st0 (writeFileFormat src)).2.card_type = src.card_type ∧
    (parseFileFormat st0 (writeFileFormat src)).2.total_blocks = src.total_blocks ∧
    (parseFileFormat st0 (writeFileFormat src)).2.uid_length = src.uid_length ∧
    (∀ i, i < src.uid_length →
      (parseFileFormat st0 (writeFileFormat src)).2.uid i = src.uid i) ∧
    (parseFileFormat st0 (writeFileFormat src)).2.sak = src.sak ∧
    (parseFileFormat st0 (writeFileFormat src)).2.atqa0 = src.atqa1 ∧
    (parseFileFormat st0 (writeFileFormat src)).2.atqa1 = src.atqa0 ∧
    (parseFileFormat st0 (writeFileFormat src)).2.blocks_read = src.blocks_read ∧
    (∀ i, i < src.blocks_read * 16 →
      (parseFileFormat st0 (writeFileFormat src)).2.dump i = src.dump i) := by
  have hfold := parseLinesFold_writeFileFormat src st0 hct hul huh huid hsak ha0 ha1 hdump
  unfold parseFileFormat
  rw [hfold]
  refine ⟨?_, rfl, ?_, rfl, ?_, rfl, rfl, rfl, rfl, ?_⟩
  · show decide (0 < src.blocks_read) = true
    simp only [decide_eq_true_eq]
    omega
  · show (if src.card_type = CardType.mifare1K then MIFARE_1K_BLOCKS else MIFARE_4K_BLOCKS) =
      src.total_blocks
    rcases hct with h | h <;> rw [htb, h] <;> decide
  · intro i hi
    show (if i < src.uid_length then src.uid i else st0.uid i) = src.uid i
    rw [if_pos hi]
  · intro i hi
    show (if i < src.blocks_read * 16 then src.dump i else st0.dump i) = src.dump i
    rw [if_pos hi]

/-! ## SRIX dump-file codec (srix_tool.cpp lines 345-554) -/

/-- SRIX4K UID size in bytes (srix_tool.h). -/
def SRIX_UID_SIZE : Nat := 8

/-- SRIX4K block size in bytes (srix_tool.h). -/
def SRIX_BLOCK_SIZE : Nat := 4

/-- SRIX4K total dump size in bytes (srix_tool.h). -/
def SRIX_TOTAL_SIZE : Nat := 512

/-- toUpperCase distributes over append. -/
theorem lcUpper_append (a b : List Char) : lcUpper (a ++ b) = lcUpper a ++ lcUpper b :=
  List.map_append charUpper a b

/-- Uppercasing a lowercase hex byte group gives the uppercase group. -/
theorem lcUpper_byteHex (b : Nat) (hb : b < 256) : lcUpper (byteHex b) = byteHexUpper b := by
  unfold lcUpper byteHex byteHexUpper
  simp only [List.map_cons, List.map_nil]
  rw [charUpper_hexDigitChar (b / 16) (by omega), charUpper_hexDigitChar (b % 16) (by omega)]

/-- Uppercasing a joined run of lowercase hex byte groups gives the joined
uppercase groups. -/
theorem lcUpper_join_byteHex (bs : List Nat) (h : ∀ b ∈ bs, b < 256) :
    lcUpper ((bs.map byteHex).join) = (bs.map byteHexUpper).join := by
  induction bs with
  | nil => rfl
  | cons x xs ih =>
    simp only [List.map_cons, List.join_cons]
    rw [lcUpper_append, lcUpper_byteHex x (h x (by simp)), ih (fun b hb => h b (by simp [hb]))]

/-- A list of non-whitespace characters is unchanged by trim. -/
theorem lcTrim_all_solid (l : List Char) (h : ∀ c ∈ l, isWhitespaceChar c = false) :
    lcTrim l = l := by
  apply lcTrim_eq_self
  · intro c hc
    exact h c (List.mem_of_mem_head? (Option.mem_def.mpr hc))
  · intro c hc
    obtain ⟨hne, hdl⟩ := List.mem_getLast?_eq_getLast (Option.mem_def.mpr hc)
    rw [hdl]
    exact h (l.getLast hne) (List.getLast_mem hne)

/-- A prefix whose first character is not whitespace, followed by a
nonempty run of non-whitespace characters, is unchanged by trim. -/
theorem lcTrim_append_solid (pre l : List Char) (hpre : pre ≠ [])
    (hhead : ∀ c, pre.head? = some c → isWhitespaceChar c = false)
    (hne : l ≠ []) (hall : ∀ c ∈ l, isWhitespaceChar c = false) :
    lcTrim (pre ++ l) = pre ++ l := by
  apply lcTrim_eq_self
  · intro c hc
    cases pre with
    | nil => exact absurd rfl hpre
    | cons p ps =>
      simp only [List.cons_append, List.head?_cons, Option.some.injEq] at hc
      exact hc ▸ hhead p rfl
  · intro c hc
    rw [List.getLast?_append] at hc
    rcases hl : l.getLast? with _ | d
    · exact absurd (List.getLast?_eq_none_iff.mp hl) hne
    · rw [hl] at hc
      have hdc : d = c := by simpa using hc
      obtain ⟨hne2, hdl⟩ := List.mem_getLast?_eq_getLast (Option.mem_def.mpr hl)
      rw [← hdc, hdl]
      exact hall (l.getLast hne2) (List.getLast_mem hne2)

/-- Extracting the i-th two-character slice of a join of two-character
groups gives the i-th group. -/
theorem join_pairs_extract (gs : List (List Char)) (hg : ∀ g ∈ gs, g.length = 2) :
    ∀ i, i < gs.length → ((gs.join).drop (2 * i)).take 2 = gs.getD i [] := by
  induction gs with
  | nil =>
    intro i hi
    simp at hi
  | cons g gs ih =>
    intro i hi
    cases i with
    | zero =>
      rw [Nat.mul_zero, List.drop_zero]
      simp only [List.join_cons]
      rw [List.take_left' (hg g (by simp))]
      rfl
    | succ j =>
      simp only [List.join_cons]
      rw [show 2 * (j + 1) = g.length + 2 * j from by rw [hg g (by simp)]; omega,
        List.drop_append (2 * j)]
      rw [ih (fun x hx => hg x (by simp [hx])) j (by simpa using hi)]
      rfl

/-- The i-th two-character slice of a joined uppercase hex string decodes
to the i-th byte. -/
theorem join_byteHexUpper_extract (bs : List Nat) (h : ∀ b ∈ bs, b < 256) (i : Nat)
    (hi : i < bs.length) :
    strtoul16 ((((bs.map byteHexUpper).join).drop (2 * i)).take 2) = bs.getD i 0 := by
  rw [join_pairs_extract (bs.map byteHexUpper)
    (by
      intro g hg
      obtain ⟨b, hb, hgb⟩ := List.mem_map.mp hg
      rw [← hgb]
      rfl)
    i (by simpa using hi)]
  rw [List.getD_eq_getElem?_getD, List.getElem?_map, List.getElem?_eq_getElem hi,
    List.getD_eq_getElem?_getD, List.getElem?_eq_getElem hi]
  simp only [Option.map_some, Option.getD_some]
  apply strtoul16_byteHexUpper
  exact h _ (List.getElem_mem hi)

/-- Characters of a joined uppercase hex string: not whitespace, not a
bracket, not a space. -/
theorem join_byteHexUpper_mem (bs : List Nat) (h : ∀ b ∈ bs, b < 256) :
    ∀ c ∈ (bs.map byteHexUpper).join,
      isWhitespaceChar c = false ∧ c ≠ ':' ∧ c ≠ ']' ∧ c ≠ ' ' := by
  intro c hc
  obtain ⟨g, hg, hcg⟩ := List.mem_join.mp hc
  obtain ⟨b, hb, hgb⟩ := List.mem_map.mp hg
  exact byteHexUpper_mem_shape b (h b hb) c (hgb ▸ hcg)

/-- The 8 UID bytes written by save_file_headless. -/
def srixUidBytes (uid : Nat → Nat) : List Nat :=
  (List.range SRIX_UID_SIZE).map uid

/-- The UID string of save_file_headless (srix_tool.cpp lines 399-405):
every byte as two padded hex digits, no separators, uppercased. -/
def srixUidStr (uid : Nat → Nat) : List Char :=
  lcUpper (((srixUidBytes uid).map byteHex).join)

/-- The 4 bytes of one SRIX block of the dump buffer. -/
def srixBlockBytes (dump : Nat → Nat) (block : Nat) : List Nat :=
  (List.range SRIX_BLOCK_SIZE).map (fun i => dump (block * SRIX_BLOCK_SIZE + i))

/-- One block line of save_file_headless (srix_tool.cpp lines 414-431):
bracketed padded hex block number, a space, the 4 block bytes as padded
hex, the whole line uppercased. -/
def srixBlockLine (dump : Nat → Nat) (block : Nat) : List Char :=
  lcUpper ('[' :: byteHex block ++ "] ".toList ++ ((srixBlockBytes dump block).map byteHex).join)

/-- SRIXTool::save_file_headless (srix_tool.cpp lines 345-438), as the
list of lines it prints: the Flipper-compatible header and the 128 block
lines. -/
def save_file_headless (uid dump : Nat → Nat) : List (List Char) :=
  ["Filetype: SRIX Dump".toList,
   "UID: ".toList ++ srixUidStr uid,
   "Blocks: ".toList ++ decChars SRIX_BLOCK_COUNT,
   "Data size: ".toList ++ decChars SRIX_TOTAL_SIZE,
   "# Data:".toList] ++
  (List.range SRIX_BLOCK_COUNT).map (srixBlockLine dump)

/-- The load-side parser state: the UID and dump buffers (reset to zero on
entry) and the two loop locals of load_file_headless. -/
@[ext]
structure SrixFileState where
  uid : Nat → Nat
  dump : Nat → Nat
  header_passed : Bool
  blocks_loaded : Nat

/-- The UID field of a load line: substring(5), trim, remove spaces
(srix_tool.cpp lines 486-488). -/
def srixUidField (line : List Char) : List Char :=
  lcRemove ' ' (lcTrim (line.drop 5))

/-- The data field of a block line: the part after the bracket, trimmed,
spaces removed (srix_tool.cpp lines 513-515). -/
def srixDataField (rest : List Char) : List Char :=
  lcRemove ' ' (lcTrim rest)

/-- One iteration of the load_file_headless line loop
(srix_tool.cpp lines 477-537), on an already-trimmed line.  The
block-number byte is a uint8_t, hence the mod 256; the UID branch runs
before the header check, as in the source; the indexOf(']') > 0 guard is
afterFirst returning some, since a line in that branch starts with the
bracket and so cannot have ']' at position 0. -/
def srixLoadLine (st : SrixFileState) (line : List Char) : SrixFileState :=
  if line = [] then st
  else if lcStartsWith line ("UID:".toList) then
    { st with uid := fun i =>
        if i < SRIX_UID_SIZE ∧ 2 * i < (srixUidField line).length then
          strtoul16 (((srixUidField line).drop (2 * i)).take 2)
        else st.uid i }
  else if st.header_passed = false then
    if lcStartsWith line ("# Data:".toList) then { st with header_passed := true } else st
  else if lcStartsWith line ("[".toList) then
    match afterFirst ']' line with
    | some rest =>
      if strtoul16 ((beforeFirst ']' line).drop 1) % 256 < SRIX_BLOCK_COUNT then
        if SRIX_BLOCK_SIZE * 2 ≤ (srixDataField rest).length then
          { st with
            dump := fun j =>
              if strtoul16 ((beforeFirst ']' line).drop 1) % 256 * SRIX_BLOCK_SIZE ≤ j ∧
                  j < strtoul16 ((beforeFirst ']' line).drop 1) % 256 * SRIX_BLOCK_SIZE +
                    SRIX_BLOCK_SIZE then
                strtoul16 (((srixDataField rest).drop
                  (2 * (j - strtoul16 ((beforeFirst ']' line).drop 1) % 256 *
                    SRIX_BLOCK_SIZE))).take 2)
              else st.dump j,
            blocks_loaded := st.blocks_loaded + 1 }
        else st
      else st
    | none => st
  else st

/-- The load loop over all lines of the file; each raw line is trimmed
first (srix_tool.cpp lines 477-479). -/
def srixLoadFold (st : SrixFileState) : List (List Char) → SrixFileState
  | [] => st
  | l :: rest => srixLoadFold (srixLoadLine st (lcTrim l)) rest

/-- The parser state after the buffer resets of load_file_headless
(srix_tool.cpp lines 467-472). -/
def srixInitState : SrixFileState :=
  { uid := fun _ => 0, dump := fun _ => 0, header_passed := false, blocks_loaded := 0 }

/-- SRIXTool::load_file_headless (srix_tool.cpp lines 440-554) on the
lines of an existing file: the error code, the dump-valid flag and the
final parser state.  Fewer than 128 loaded block lines is the
incomplete-dump error and leaves the dump invalid. -/
def load_file_headless (lines : List (List Char)) : Int × Bool × SrixFileState :=
  if (srixLoadFold srixInitState lines).blocks_loaded < SRIX_BLOCK_COUNT then
    (SrixERROR_INCOMPLETE_DUMP, false, srixLoadFold srixInitState lines)
  else (SrixSUCCESS, true, srixLoadFold srixInitState lines)

/-- Unfolding equation of the load loop. -/
theorem srixLoadFold_cons (st : SrixFileState) (l : List Char) (rest : List (List Char)) :
    srixLoadFold st (l :: rest) = srixLoadFold (srixLoadLine st (lcTrim l)) rest := rfl

/-- Unfolding equation of the load loop on the empty file. -/
theorem srixLoadFold_nil (st : SrixFileState) : srixLoadFold st [] = st := rfl

/-- The load loop splits over list append. -/
theorem srixLoadFold_append (st : SrixFileState) (l1 l2 : List (List Char)) :
    srixLoadFold st (l1 ++ l2) = srixLoadFold (srixLoadFold st l1) l2 := by
  induction l1 generalizing st with
  | nil => rfl
  | cons x xs ih =>
    rw [List.cons_append, srixLoadFold_cons, srixLoadFold_cons]
    exact ih _

/-- Unfolding equation of beforeFirst on a non-empty list. -/
theorem beforeFirst_cons (ch c : Char) (cs : List Char) :
    beforeFirst ch (c :: cs) = if c == ch then [] else c :: beforeFirst ch cs := rfl

/-- beforeFirst keeps exactly a prefix free of the searched character. -/
theorem beforeFirst_append (ch : Char) (l1 l2 : List Char) (h : ∀ c ∈ l1, c ≠ ch) :
    beforeFirst ch (l1 ++ ch :: l2) = l1 := by
  induction l1 with
  | nil =>
    rw [List.nil_append, beforeFirst_cons, if_pos (by simp)]
  | cons c cs ih =>
    rw [List.cons_append, beforeFirst_cons,
      if_neg (by simp only [beq_iff_eq]; exact h c (by simp))]
    rw [ih (fun x hx => h x (by simp [hx]))]

/-- A line matching none of the load branches leaves the parser state
unchanged. -/
theorem srixLoad_skip_line (st : SrixFileState) (line : List Char)
    (h0 : lcTrim line ≠ [])
    (h1 : lcStartsWith (lcTrim line) ("UID:".toList) = false)
    (h2 : lcStartsWith (lcTrim line) ("# Data:".toList) = false)
    (h3 : lcStartsWith (lcTrim line) ("[".toList) = false) :
    srixLoadLine st (lcTrim line) = st := by
  unfold srixLoadLine
  rw [if_neg h0, if_neg (by rw [h1]; exact Bool.false_ne_true)]
  by_cases hp : st.header_passed = false
  · rw [if_pos hp, if_neg (by rw [h2]; exact Bool.false_ne_true)]
  · rw [if_neg hp, if_neg (by rw [h3]; exact Bool.false_ne_true)]

/-- Loading the written UID line restores the 8 UID bytes and touches
nothing else. -/
theorem srixLoad_uid_line (st : SrixFileState) (uid : Nat → Nat)
    (h : ∀ i, i < SRIX_UID_SIZE → uid i < 256) :
    srixLoadLine st (lcTrim ("UID: ".toList ++ srixUidStr uid)) =
      { st with uid := fun i => if i < SRIX_UID_SIZE then uid i else st.uid i } := by
  have hmem : ∀ b ∈ srixUidBytes uid, b < 256 := by
    intro b hb
    obtain ⟨i, hi, hbi⟩ := List.mem_map.mp hb
    rw [List.mem_range] at hi
    exact hbi ▸ h i hi
  have hlen : (srixUidBytes uid).length = SRIX_UID_SIZE := by simp [srixUidBytes]
  have hstr : srixUidStr uid = ((srixUidBytes uid).map byteHexUpper).join := by
    unfold srixUidStr
    exact lcUpper_join_byteHex _ hmem
  have hJlen : (((srixUidBytes uid).map byteHexUpper).join).length = 16 := by
    rw [join_byteHexUpper_length, hlen]
    rfl
  rw [hstr]
  rw [lcTrim_append_solid "UID: ".toList _ (by simp)
    (fun c hc => by simp at hc; subst hc; decide)
    (by rw [← List.length_pos, hJlen]; omega)
    (fun c hc => (join_byteHexUpper_mem _ hmem c hc).1)]
  have hfield : srixUidField ("UID: ".toList ++ ((srixUidBytes uid).map byteHexUpper).join) =
      ((srixUidBytes uid).map byteHexUpper).join := by
    unfold srixUidField
    rw [show (5 : Nat) = ("UID: ".toList).length from rfl, List.drop_left]
    rw [lcTrim_all_solid _ (fun c hc => (join_byteHexUpper_mem _ hmem c hc).1)]
    exact lcRemove_eq_self ' ' _ (fun c hc => ((join_byteHexUpper_mem _ hmem c hc).2.2.2))
  unfold srixLoadLine
  rw [if_neg (by simp), if_pos (by simp [lcStartsWith])]
  simp only [hfield, hJlen]
  ext i <;> try rfl
  show (if i < SRIX_UID_SIZE ∧ 2 * i < 16 then
      strtoul16 (((((srixUidBytes uid).map byteHexUpper).join).drop (2 * i)).take 2)
    else st.uid i) = (if i < SRIX_UID_SIZE then uid i else st.uid i)
  by_cases hi : i < SRIX_UID_SIZE
  · have h2i : 2 * i < 16 := by
      have hS : SRIX_UID_SIZE = 8 := rfl
      omega
    rw [if_pos ⟨hi, h2i⟩, if_pos hi,
      join_byteHexUpper_extract (srixUidBytes uid) hmem i (by rw [hlen]; exact hi)]
    unfold srixUidBytes
    rw [List.getD_eq_getElem?_getD]
    simp [List.getElem?_map, List.getElem?_range, hi]
  · rw [if_neg (fun hcon => hi hcon.1), if_neg hi]

/-- Loading the header marker line sets the header flag. -/
theorem srixLoad_data_marker (st : SrixFileState) (h : st.header_passed = false) :
    srixLoadLine st (lcTrim ("# Data:".toList)) = { st with header_passed := true } := by
  unfold srixLoadLine
  rw [if_neg (by decide), if_neg (by simp [lcStartsWith]), if_pos h, if_pos (by decide)]

/-- The written block line, with the uppercasing pushed inside. -/
theorem srixBlockLine_eq (dump : Nat → Nat) (block : Nat) (hb : block < 256)
    (hbytes : ∀ b ∈ srixBlockBytes dump block, b < 256) :
    srixBlockLine dump block =
      ('[' :: byteHexUpper block ++ "] ".toList) ++
        ((srixBlockBytes dump block).map byteHexUpper).join := by
  unfold srixBlockLine
  rw [show ('[' :: byteHex block ++ "] ".toList ++
      ((srixBlockBytes dump block).map byteHex).join) =
      (['['] ++ byteHex block) ++ ("] ".toList ++
        ((srixBlockBytes dump block).map byteHex).join) from by simp]
  rw [lcUpper_append, lcUpper_append, lcUpper_append]
  rw [lcUpper_byteHex block hb, lcUpper_join_byteHex _ hbytes,
    show lcUpper ['['] = ['['] from by decide,
    show lcUpper ("] ".toList) = "] ".toList from by decide]
  simp

/-- A byte of a block of the SRIX dump buffer. -/
theorem srixBlockBytes_getD (dump : Nat → Nat) (block j : Nat) (hj : j < SRIX_BLOCK_SIZE) :
    (srixBlockBytes dump block).getD j 0 = dump (block * SRIX_BLOCK_SIZE + j) := by
  unfold srixBlockBytes
  rw [List.getD_eq_getElem?_getD]
  simp [List.getElem?_map, List.getElem?_range, hj]

/-- Loading a written block line stores its 4 bytes at the block offset
and counts one loaded block; no other field changes. -/
theorem srixLoad_block_line (st : SrixFileState) (dump : Nat → Nat) (blk : Nat)
    (hblk : blk < SRIX_BLOCK_COUNT) (hhp : st.header_passed = true)
    (hbytes : ∀ b ∈ srixBlockBytes dump blk, b < 256) :
    srixLoadLine st (lcTrim (srixBlockLine dump blk)) =
      { st with
        dump := fun j =>
          if blk * SRIX_BLOCK_SIZE ≤ j ∧ j < blk * SRIX_BLOCK_SIZE + SRIX_BLOCK_SIZE then
            dump j else st.dump j,
        blocks_loaded := st.blocks_loaded + 1 } := by
  have hb256 : blk < 256 := by
    have hC : SRIX_BLOCK_COUNT = 128 := rfl
    omega
  have hblen : (srixBlockBytes dump blk).length = SRIX_BLOCK_SIZE := by simp [srixBlockBytes]
  have hJlen : (((srixBlockBytes dump blk).map byteHexUpper).join).length = 8 := by
    rw [join_byteHexUpper_length, hblen]
    rfl
  rw [srixBlockLine_eq dump blk hb256 hbytes]
  rw [lcTrim_append_solid ('[' :: byteHexUpper blk ++ "] ".toList) _ (by simp)
    (fun c hc => by simp at hc; subst hc; decide)
    (by rw [← List.length_pos, hJlen]; omega)
    (fun c hc => (join_byteHexUpper_mem _ hbytes c hc).1)]
  rw [show (('[' :: byteHexUpper blk ++ "] ".toList) ++
      ((srixBlockBytes dump blk).map byteHexUpper).join) =
      (('[' :: byteHexUpper blk) ++
        (']' :: ' ' :: ((srixBlockBytes dump blk).map byteHexUpper).join)) from by simp]
  have hafter : afterFirst ']' (('[' :: byteHexUpper blk) ++
      (']' :: ' ' :: ((srixBlockBytes dump blk).map byteHexUpper).join)) =
      some (' ' :: ((srixBlockBytes dump blk).map byteHexUpper).join) := by
    rw [afterFirst_append ']' _ _ ?_]
    · rw [afterFirst_cons, if_pos (by decide)]
    · intro c hc
      rcases List.mem_cons.mp hc with h5 | h5
      · subst h5
        decide
      · exact (byteHexUpper_mem_shape blk hb256 c h5).2.2.1
  have hbefore : beforeFirst ']' (('[' :: byteHexUpper blk) ++
      (']' :: ' ' :: ((srixBlockBytes dump blk).map byteHexUpper).join)) =
      '[' :: byteHexUpper blk := by
    apply beforeFirst_append
    intro c hc
    rcases List.mem_cons.mp hc with h5 | h5
    · subst h5
      decide
    · exact (byteHexUpper_mem_shape blk hb256 c h5).2.2.1
  have hnum : strtoul16 ((beforeFirst ']' (('[' :: byteHexUpper blk) ++
      (']' :: ' ' :: ((srixBlockBytes dump blk).map byteHexUpper).join))).drop 1) % 256 =
      blk := by
    rw [hbefore, show ('[' :: byteHexUpper blk).drop 1 = byteHexUpper blk from rfl,
      strtoul16_byteHexUpper blk hb256, Nat.mod_eq_of_lt hb256]
  have hdata : srixDataField (' ' :: ((srixBlockBytes dump blk).map byteHexUpper).join) =
      ((srixBlockBytes dump blk).map byteHexUpper).join := by
    unfold srixDataField
    rw [lcTrim_space_cons,
      lcTrim_all_solid _ (fun c hc => (join_byteHexUpper_mem _ hbytes c hc).1)]
    exact lcRemove_eq_self ' ' _ (fun c hc => ((join_byteHexUpper_mem _ hbytes c hc).2.2.2))
  unfold srixLoadLine
  rw [if_neg (by simp), if_neg (by simp [lcStartsWith]), if_neg (by simp [hhp]),
    if_pos (by simp [lcStartsWith])]
  simp only [hafter, hnum, hdata, hJlen]
  rw [if_pos hblk, if_pos (by decide : SRIX_BLOCK_SIZE * 2 ≤ 8)]
  ext j <;> try rfl
  show (if blk * SRIX_BLOCK_SIZE ≤ j ∧ j < blk * SRIX_BLOCK_SIZE + SRIX_BLOCK_SIZE then
      strtoul16 (((((srixBlockBytes dump blk).map byteHexUpper).join).drop
        (2 * (j - blk * SRIX_BLOCK_SIZE))).take 2)
    else st.dump j) =
    (if blk * SRIX_BLOCK_SIZE ≤ j ∧ j < blk * SRIX_BLOCK_SIZE + SRIX_BLOCK_SIZE then
      dump j else st.dump j)
  by_cases hj : blk * SRIX_BLOCK_SIZE ≤ j ∧ j < blk * SRIX_BLOCK_SIZE + SRIX_BLOCK_SIZE
  · have hS : SRIX_BLOCK_SIZE = 4 := rfl
    have hjlt : j - blk * SRIX_BLOCK_SIZE < SRIX_BLOCK_SIZE := by
      obtain ⟨hj1, hj2⟩ := hj
      rw [hS] at hj1 hj2 ⊢
      omega
    rw [if_pos hj, if_pos hj,
      join_byteHexUpper_extract (srixBlockBytes dump blk) hbytes (j - blk * SRIX_BLOCK_SIZE)
        (by rw [hblen]; exact hjlt),
      srixBlockBytes_getD dump blk _ hjlt]
    congr 1
    obtain ⟨hj1, hj2⟩ := hj
    rw [hS] at hj1 hj2 ⊢
    omega
  · rw [if_neg hj, if_neg hj]

/-- Folding the written block lines for blocks k..k+m-1 over a parser
state past the header stores exactly those dump bytes and counts m loaded
blocks. -/
theorem srixLoad_blocks_fold (dump : Nat → Nat) (m : Nat) :
    ∀ (k : Nat) (stA : SrixFileState), stA.header_passed = true →
    (∀ j, j < (k + m) * SRIX_BLOCK_SIZE → dump j < 256) →
    k + m ≤ SRIX_BLOCK_COUNT →
    srixLoadFold stA ((List.range' k m).map (srixBlockLine dump)) =
      { stA with
        blocks_loaded := stA.blocks_loaded + m,
        dump := fun j => if k * SRIX_BLOCK_SIZE ≤ j ∧ j < (k + m) * SRIX_BLOCK_SIZE then
          dump j else stA.dump j } := by
  have hS : SRIX_BLOCK_SIZE = 4 := rfl
  induction m with
  | zero =>
    intro k stA _ _ _
    show stA = _
    ext j <;> try rfl
    · show stA.dump j =
        (if k * SRIX_BLOCK_SIZE ≤ j ∧ j < (k + 0) * SRIX_BLOCK_SIZE then dump j
         else stA.dump j)
      rw [if_neg (by rw [hS]; omega)]
  | succ m ih =>
    intro k stA hhp hdump hle
    rw [List.range'_succ, List.map_cons, srixLoadFold_cons]
    have hbytes : ∀ b ∈ srixBlockBytes dump k, b < 256 := by
      intro b hb
      obtain ⟨j, hj, hbj⟩ := List.mem_map.mp hb
      rw [List.mem_range] at hj
      exact hbj ▸ hdump (k * SRIX_BLOCK_SIZE + j)
        (by rw [hS] at hj ⊢; omega)
    rw [srixLoad_block_line stA dump k (by omega) hhp hbytes]
    rw [ih (k + 1)
      { stA with
        dump := fun j =>
          if k * SRIX_BLOCK_SIZE ≤ j ∧ j < k * SRIX_BLOCK_SIZE + SRIX_BLOCK_SIZE then
            dump j else stA.dump j,
        blocks_loaded := stA.blocks_loaded + 1 }
      hhp (fun j hj => hdump j (by rw [hS] at hj ⊢; omega)) (by omega)]
    ext j <;> try rfl
    · show (if (k + 1) * SRIX_BLOCK_SIZE ≤ j ∧ j < (k + 1 + m) * SRIX_BLOCK_SIZE then dump j
        else if k * SRIX_BLOCK_SIZE ≤ j ∧ j < k * SRIX_BLOCK_SIZE + SRIX_BLOCK_SIZE then
          dump j
        else stA.dump j) =
        (if k * SRIX_BLOCK_SIZE ≤ j ∧ j < (k + (m + 1)) * SRIX_BLOCK_SIZE then dump j
        else stA.dump j)
      rw [hS]
      by_cases h1 : (k + 1) * 4 ≤ j ∧ j < (k + 1 + m) * 4
      · rw [if_pos h1, if_pos (by omega)]
      · rw [if_neg h1]
        by_cases h2 : k * 4 ≤ j ∧ j < k * 4 + 4
        · rw [if_pos h2, if_pos (by omega)]
        · rw [if_neg h2, if_neg (by omega)]
    · show stA.blocks_loaded + 1 + m = stA.blocks_loaded + (m + 1)
      omega

/-- Loading back the saved SRIX file succeeds, marks the dump valid, and
restores every UID byte and every dump byte. -/
theorem srix_save_load_roundtrip (uid dump : Nat → Nat)
    (hu : ∀ i, i < SRIX_UID_SIZE → uid i < 256)
    (hd : ∀ j, j < SRIX_TOTAL_SIZE → dump j < 256) :
    (load_file_headless (save_file_headless uid dump)).1 = SrixSUCCESS ∧
    (load_file_headless (save_file_headless uid dump)).2.1 = true ∧
    (∀ i, i < SRIX_UID_SIZE →
      (load_file_headless (save_file_headless uid dump)).2.2.uid i = uid i) ∧
    (∀ j, j < SRIX_TOTAL_SIZE →
      (load_file_headless (save_file_headless uid dump)).2.2.dump j = dump j) := by
  have hT : (0 + SRIX_BLOCK_COUNT) * SRIX_BLOCK_SIZE = SRIX_TOTAL_SIZE := rfl
  have hfold : srixLoadFold srixInitState (save_file_headless uid dump) =
      { uid := fun i => if i < SRIX_UID_SIZE then uid i else 0,
        dump := fun j => if j < SRIX_TOTAL_SIZE then dump j else 0,
        header_passed := true,
        blocks_loaded := SRIX_BLOCK_COUNT } := by
    unfold save_file_headless
    rw [srixLoadFold_append]
    rw [srixLoadFold_cons,
      srixLoad_skip_line _ ("Filetype: SRIX Dump".toList)
        (by decide) (by decide) (by decide) (by decide)]
    rw [srixLoadFold_cons, srixLoad_uid_line _ uid hu]
    rw [srixLoadFold_cons,
      srixLoad_skip_line _ ("Blocks: ".toList ++ decChars SRIX_BLOCK_COUNT)
        (by decide) (by decide) (by decide) (by decide)]
    rw [srixLoadFold_cons,
      srixLoad_skip_line _ ("Data size: ".toList ++ decChars SRIX_TOTAL_SIZE)
        (by decide) (by decide) (by decide) (by decide)]
    rw [srixLoadFold_cons, srixLoad_data_marker _ rfl]
    rw [srixLoadFold_nil]
    rw [List.range_eq_range', srixLoad_blocks_fold dump SRIX_BLOCK_COUNT]
    · ext i <;> try rfl
      · show (if 0 * SRIX_BLOCK_SIZE ≤ i ∧ i < (0 + SRIX_BLOCK_COUNT) * SRIX_BLOCK_SIZE then
            dump i else srixInitState.dump i) =
          (if i < SRIX_TOTAL_SIZE then dump i else 0)
        by_cases h : i < SRIX_TOTAL_SIZE
        · rw [if_pos ⟨by omega, by rw [hT]; exact h⟩, if_pos h]
        · rw [if_neg (fun hcon => h (hT ▸ hcon.2)), if_neg h]
          rfl
    · rfl
    · intro j hj
      exact hd j (by rw [hT] at hj; omega)
    · omega
  unfold load_file_headless
  rw [hfold]
  rw [if_neg (show ¬(SRIX_BLOCK_COUNT < SRIX_BLOCK_COUNT) by omega)]
  refine ⟨rfl, rfl, ?_, ?_⟩
  · intro i hi
    show (if i < SRIX_UID_SIZE then uid i else 0) = uid i
    rw [if_pos hi]
  · intro j hj
    show (if j < SRIX_TOTAL_SIZE then dump j else 0) = dump j
    rw [if_pos hj]

/-- Concrete 1K handler state exhibiting the ATQA byte swap of the dump
file round-trip: atqa0 is 4 and atqa1 is 0. -/
def roundTripState : MifareState :=
  { dump_valid := true, card_type := CardType.mifare1K, total_blocks := MIFARE_1K_BLOCKS,
    blocks_read := 1, uid_length := 4, uid := fun i => i + 1, sak := 8,
    atqa0 := 4, atqa1 := 0, dump := fun _ => 0,
    sector_keys := fun _ => { key_a := [], key_b := [], key_a_valid := false,
                              key_b_valid := false } }

/-- Sample SRIX UID buffer for the round-trip witness. -/
def srixSampleUid : Nat → Nat := fun i => i + 1

/-- Sample SRIX dump buffer for the round-trip witness. -/
def srixSampleDump : Nat → Nat := fun _ => 17

/-- C3 (corrected): encoding a tag record to its dump-file format and
decoding it back reproduces the UID, the SAK, and the byte-for-byte
memory payload for both protocols; for Mifare the parse also succeeds and
restores card type, total blocks and block counter, but the two ATQA
bytes come back swapped, because writeFileFormat prints atqa[1] before
atqa[0] while parseFileFormat stores the first printed byte into atqa[0];
for SRIX the load succeeds, marks the dump valid, and reproduces the UID
and payload exactly. -/
theorem dump_file_roundtrip (src st0 : MifareState) (uid dump : Nat → Nat)
    (hct : src.card_type = CardType.mifare1K ∨ src.card_type = CardType.mifare4K)
    (hul : 1 ≤ src.uid_length) (huh : src.uid_length ≤ 10)
    (huid : ∀ i, i < src.uid_length → src.uid i < 256)
    (hsak : src.sak < 256) (ha0 : src.atqa0 < 256) (ha1 : src.atqa1 < 256)
    (hbr : 1 ≤ src.blocks_read)
    (hdump : ∀ i, i < src.blocks_read * 16 → src.dump i < 256)
    (htb : src.total_blocks = totalBlocksOf src.card_type)
    (hu : ∀ i, i < SRIX_UID_SIZE → uid i < 256)
    (hd : ∀ j, j < SRIX_TOTAL_SIZE → dump j < 256) :
    ((parseFileFormat st0 (writeFileFormat src)).1 = true ∧
     (parseFileFormat st0 (writeFileFormat src)).2.card_type = src.card_type ∧
     (parseFileFormat st0 (writeFileFormat src)).2.total_blocks = src.total_blocks ∧
     (parseFileFormat st0 (writeFileFormat src)).2.uid_length = src.uid_length ∧
     (∀ i, i < src.uid_length →
       (parseFileFormat st0 (writeFileFormat src)).2.uid i = src.uid i) ∧
     (parseFileFormat st0 (writeFileFormat src)).2.sak = src.sak ∧
     (parseFileFormat st0 (writeFileFormat src)).2.atqa0 = src.atqa1 ∧
     (parseFileFormat st0 (writeFileFormat src)).2.atqa1 = src.atqa0 ∧
     (parseFileFormat st0 (writeFileFormat src)).2.blocks_read = src.blocks_read ∧
     (∀ i, i < src.blocks_read * 16 →
       (parseFileFormat st0 (writeFileFormat src)).2.dump i = src.dump i)) ∧
    ((load_file_headless (save_file_headless uid dump)).1 = SrixSUCCESS ∧
     (load_file_headless (save_file_headless uid dump)).2.1 = true ∧
     (∀ i, i < SRIX_UID_SIZE →
       (load_file_headless (save_file_headless uid dump)).2.2.uid i = uid i) ∧
     (∀ j, j < SRIX_TOTAL_SIZE →
       (load_file_headless (save_file_headless uid dump)).2.2.dump j = dump j)) :=
  ⟨parseFileFormat_writeFileFormat src st0 hct hul huh huid hsak ha0 ha1 hbr hdump htb,
   srix_save_load_roundtrip uid dump hu hd⟩

/-- C3 counterexample to the frozen claim: on a concrete 1K state with
ATQA bytes (4, 0), the encode-decode round trip succeeds but hands back
atqa0 = 0 — the ATQA pair is not reproduced identically. -/
theorem dump_file_roundtrip_counterexample :
    (parseFileFormat roundTripState (writeFileFormat roundTripState)).1 = true ∧
    roundTripState.atqa0 = 4 ∧ roundTripState.atqa1 = 0 ∧
    (parseFileFormat roundTripState (writeFileFormat roundTripState)).2.atqa0 = 0 ∧
    (parseFileFormat roundTripState (writeFileFormat roundTripState)).2.atqa0 ≠
      roundTripState.atqa0 := by
  have h := parseFileFormat_writeFileFormat roundTripState roundTripState
    (Or.inl rfl) (by decide) (by decide) (by decide) (by decide) (by decide) (by decide)
    (by decide) (by decide) rfl
  refine ⟨h.1, rfl, rfl, ?_, ?_⟩
  · exact h.2.2.2.2.2.2.1
  · rw [h.2.2.2.2.2.2.1]
    decide

set_option maxRecDepth 8000 in
/-- Witness for dump_file_roundtrip: the concrete 1K state and a concrete
SRIX buffer pair satisfy every hypothesis, and the round-trip conclusion
holds for them. -/
theorem dump_file_roundtrip_witness :
    ((roundTripState.card_type = CardType.mifare1K ∨
      roundTripState.card_type = CardType.mifare4K) ∧
     1 ≤ roundTripState.uid_length ∧ roundTripState.uid_length ≤ 10 ∧
     (∀ i, i < roundTripState.uid_length → roundTripState.uid i < 256) ∧
     roundTripState.sak < 256 ∧ roundTripState.atqa0 < 256 ∧ roundTripState.atqa1 < 256 ∧
     1 ≤ roundTripState.blocks_read ∧
     (∀ i, i < roundTripState.blocks_read * 16 → roundTripState.dump i < 256) ∧
     roundTripState.total_blocks = totalBlocksOf roundTripState.card_type ∧
     (∀ i, i < SRIX_UID_SIZE → srixSampleUid i < 256) ∧
     (∀ j, j < SRIX_TOTAL_SIZE → srixSampleDump j < 256)) ∧
    (((parseFileFormat roundTripState (writeFileFormat roundTripState)).1 = true ∧
      (parseFileFormat roundTripState (writeFileFormat roundTripState)).2.card_type =
        roundTripState.card_type ∧
      (parseFileFormat roundTripState (writeFileFormat roundTripState)).2.total_blocks =
        roundTripState.total_blocks ∧
      (parseFileFormat roundTripState (writeFileFormat roundTripState)).2.uid_length =
        roundTripState.uid_length ∧
      (∀ i, i < roundTripState.uid_length →
        (parseFileFormat roundTripState (writeFileFormat roundTripState)).2.uid i =
          roundTripState.uid i) ∧
      (parseFileFormat roundTripState (writeFileFormat roundTripState)).2.sak =
        roundTripState.sak ∧
      (parseFileFormat roundTripState (writeFileFormat roundTripState)).2.atqa0 =
        roundTripState.atqa1 ∧
      (parseFileFormat roundTripState (writeFileFormat roundTripState)).2.atqa1 =
        roundTripState.atqa0 ∧
      (parseFileFormat roundTripState (writeFileFormat roundTripState)).2.blocks_read =
        roundTripState.blocks_read ∧
      (∀ i, i < roundTripState.blocks_read * 16 →
        (parseFileFormat roundTripState (writeFileFormat roundTripState)).2.dump i =
          roundTripState.dump i)) ∧
     ((load_file_headless (save_file_headless srixSampleUid srixSampleDump)).1 =
        SrixSUCCESS ∧
      (load_file_headless (save_file_headless srixSampleUid srixSampleDump)).2.1 = true ∧
      (∀ i, i < SRIX_UID_SIZE →
        (load_file_headless (save_file_headless srixSampleUid srixSampleDump)).2.2.uid i =
          srixSampleUid i) ∧
      (∀ j, j < SRIX_TOTAL_SIZE →
        (load_file_headless (save_file_headless srixSampleUid srixSampleDump)).2.2.dump j =
          srixSampleDump j))) :=
  ⟨⟨Or.inl rfl, by decide, by decide, by decide, by decide, by decide, by decide,
    by decide, by decide, rfl, by decide, by decide⟩,
   dump_file_roundtrip roundTripState roundTripState srixSampleUid srixSampleDump
     (Or.inl rfl) (by decide) (by decide) (by decide) (by decide) (by decide) (by decide)
     (by decide) (by decide) rfl (by decide) (by decide)⟩

/-- Specification-side count contribution of one trimmed line: 1 exactly
when the load loop would increment blocks_loaded on it, mirroring the
branch cascade of srixLoadLine. -/
def specBlockLineIncr (hp : Bool) (line : List Char) : Nat :=
  if line = [] then 0
  else if lcStartsWith line ("UID:".toList) then 0
  else if hp = false then 0
  else if lcStartsWith line ("[".toList) then
    match afterFirst ']' line with
    | some rest =>
      if strtoul16 ((beforeFirst ']' line).drop 1) % 256 < SRIX_BLOCK_COUNT then
        if SRIX_BLOCK_SIZE * 2 ≤ (srixDataField rest).length then 1 else 0
      else 0
    | none => 0
  else 0

/-- Specification-side header flag after processing one trimmed line. -/
def srixHpAfter (hp : Bool) (line : List Char) : Bool :=
  if line = [] then hp
  else if lcStartsWith line ("UID:".toList) then hp
  else if hp = false then (if lcStartsWith line ("# Data:".toList) then true else hp)
  else hp

/-- Specification-side count of counted block-data lines of a file,
with multiplicity: duplicate lines for one block each count. -/
def specBlockLineCount (hp : Bool) : List (List Char) → Nat
  | [] => 0
  | l :: rest =>
    specBlockLineIncr hp (lcTrim l) + specBlockLineCount (srixHpAfter hp (lcTrim l)) rest

/-- Specification-side header flag after processing a list of lines. -/
def srixHpAfterLines (hp : Bool) : List (List Char) → Bool
  | [] => hp
  | l :: rest => srixHpAfterLines (srixHpAfter hp (lcTrim l)) rest

/-- Unfolding equation of the specification-side count. -/
theorem specBlockLineCount_cons (hp : Bool) (l : List Char) (rest : List (List Char)) :
    specBlockLineCount hp (l :: rest) =
      specBlockLineIncr hp (lcTrim l) +
        specBlockLineCount (srixHpAfter hp (lcTrim l)) rest := rfl

/-- Unfolding equation of the specification-side header flag. -/
theorem srixHpAfterLines_cons (hp : Bool) (l : List Char) (rest : List (List Char)) :
    srixHpAfterLines hp (l :: rest) = srixHpAfterLines (srixHpAfter hp (lcTrim l)) rest := rfl

/-- One load-loop iteration increments blocks_loaded exactly by the
specification-side contribution and moves the header flag as the
specification-side flag does. -/
theorem srixLoadLine_effects (st : SrixFileState) (line : List Char) :
    (srixLoadLine st line).blocks_loaded =
      st.blocks_loaded + specBlockLineIncr st.header_passed line ∧
    (srixLoadLine st line).header_passed = srixHpAfter st.header_passed line := by
  by_cases h0 : line = []
  · subst h0
    simp [srixLoadLine, specBlockLineIncr, srixHpAfter]
  · by_cases hU : lcStartsWith line ("UID:".toList) = true
    · constructor
      · unfold srixLoadLine specBlockLineIncr
        rw [if_neg h0, if_neg h0, if_pos hU, if_pos hU]
        rfl
      · unfold srixLoadLine srixHpAfter
        rw [if_neg h0, if_neg h0, if_pos hU, if_pos hU]
    · by_cases hp : st.header_passed = false
      · constructor
        · unfold srixLoadLine specBlockLineIncr
          rw [if_neg h0, if_neg h0, if_neg hU, if_neg hU, if_pos hp, if_pos hp]
          by_cases hD : lcStartsWith line ("# Data:".toList) = true
          · rw [if_pos hD]
            rfl
          · rw [if_neg hD]
            rfl
        · unfold srixLoadLine srixHpAfter
          rw [if_neg h0, if_neg h0, if_neg hU, if_neg hU, if_pos hp, if_pos hp]
          by_cases hD : lcStartsWith line ("# Data:".toList) = true
          · rw [if_pos hD, if_pos hD]
          · rw [if_neg hD, if_neg hD]
      · constructor
        · unfold srixLoadLine specBlockLineIncr
          rw [if_neg h0, if_neg h0, if_neg hU, if_neg hU, if_neg hp, if_neg hp]
          by_cases hB : lcStartsWith line ("[".toList) = true
          · rw [if_pos hB, if_pos hB]
            rcases hA : afterFirst ']' line with _ | rest
            · rfl
            · simp only []
              by_cases h1 : strtoul16 ((beforeFirst ']' line).drop 1) % 256 < SRIX_BLOCK_COUNT
              · rw [if_pos h1, if_pos h1]
                by_cases h2 : SRIX_BLOCK_SIZE * 2 ≤ (srixDataField rest).length
                · rw [if_pos h2, if_pos h2]
                · rw [if_neg h2, if_neg h2]
                  rfl
              · rw [if_neg h1, if_neg h1]
                rfl
          · rw [if_neg hB, if_neg hB]
            rfl
        · unfold srixLoadLine srixHpAfter
          rw [if_neg h0, if_neg h0, if_neg hU, if_neg hU, if_neg hp, if_neg hp]
          by_cases hB : lcStartsWith line ("[".toList) = true
          · rw [if_pos hB]
            rcases hA : afterFirst ']' line with _ | rest
            · rfl
            · simp only []
              by_cases h1 : strtoul16 ((beforeFirst ']' line).drop 1) % 256 < SRIX_BLOCK_COUNT
              · rw [if_pos h1]
                by_cases h2 : SRIX_BLOCK_SIZE * 2 ≤ (srixDataField rest).length
                · rw [if_pos h2]
                · rw [if_neg h2]
              · rw [if_neg h1]
          · rw [if_neg hB]

/-- The load loop counts exactly the specification-side block-line count
and tracks the specification-side header flag. -/
theorem srixLoadFold_counts (lines : List (List Char)) :
    ∀ st : SrixFileState,
    (srixLoadFold st lines).blocks_loaded =
      st.blocks_loaded + specBlockLineCount st.header_passed lines ∧
    (srixLoadFold st lines).header_passed = srixHpAfterLines st.header_passed lines := by
  induction lines with
  | nil =>
    intro st
    exact ⟨rfl, rfl⟩
  | cons l rest ih =>
    intro st
    rw [srixLoadFold_cons, specBlockLineCount_cons, srixHpAfterLines_cons]
    obtain ⟨he1, he2⟩ := srixLoadLine_effects st (lcTrim l)
    obtain ⟨ih1, ih2⟩ := ih (srixLoadLine st (lcTrim l))
    constructor
    · rw [ih1, he1, he2]
      omega
    · rw [ih2, he2]

/-- C6 (corrected): the SRIX file load returns 0 and marks the dump valid
exactly when at least 128 block-data lines are counted after the header
marker — counted with multiplicity, so duplicate lines for the same block
each count — and otherwise returns the incomplete-dump error code; the
128-line threshold does not require 128 distinct blocks, so an accepted
dump can leave distinct blocks unpopulated. -/
theorem srix_load_completeness (lines : List (List Char)) :
    ((load_file_headless lines).1 = SrixSUCCESS ↔
      SRIX_BLOCK_COUNT ≤ specBlockLineCount false lines) ∧
    ((load_file_headless lines).2.1 = true ↔
      SRIX_BLOCK_COUNT ≤ specBlockLineCount false lines) ∧
    ((load_file_headless lines).1 = SrixSUCCESS ∨
      (load_file_headless lines).1 = SrixERROR_INCOMPLETE_DUMP) := by
  have h := (srixLoadFold_counts lines srixInitState).1
  rw [show srixInitState.blocks_loaded = 0 from rfl,
    show srixInitState.header_passed = false from rfl] at h
  unfold load_file_headless
  by_cases hc : (srixLoadFold srixInitState lines).blocks_loaded < SRIX_BLOCK_COUNT
  · rw [if_pos hc]
    refine ⟨⟨fun habs => absurd habs
        (show ¬SrixERROR_INCOMPLETE_DUMP = SrixSUCCESS by decide),
      fun hge => absurd hge (by omega)⟩,
      ⟨fun habs => absurd habs (show ¬false = true by decide),
      fun hge => absurd hge (by omega)⟩,
      Or.inr rfl⟩
  · rw [if_neg hc]
    exact ⟨⟨fun _ => by omega, fun _ => rfl⟩, ⟨fun _ => by omega, fun _ => rfl⟩, Or.inl rfl⟩

/-- The dump function whose block 0 prints as the line used in the C6
counterexample file. -/
def dupDumpFn : Nat → Nat := fun j => [17, 34, 51, 68].getD (j % 4) 0

/-- A file with the header marker and 128 copies of the same block-0
line: every block-data line names block 0. -/
def dupBlockFile : List (List Char) :=
  "# Data:".toList :: List.replicate SRIX_BLOCK_COUNT ("[00] 11223344".toList)

set_option maxRecDepth 8000 in
/-- C6 counterexample to the frozen claim: loading a file whose 128 block
lines all name block 0 succeeds and marks the dump valid, although every
block but block 0 was never named and keeps the zero bytes of the buffer
reset. -/
theorem srix_load_completeness_counterexample :
    (load_file_headless dupBlockFile).1 = SrixSUCCESS ∧
    (load_file_headless dupBlockFile).2.1 = true ∧
    (∀ j, SRIX_BLOCK_SIZE ≤ j → (load_file_headless dupBlockFile).2.2.dump j = 0) ∧
    (∀ l ∈ dupBlockFile, l = "# Data:".toList ∨
      strtoul16 ((beforeFirst ']' (lcTrim l)).drop 1) % 256 = 0) := by
  have hrep : ∀ (n : Nat) (st : SrixFileState), st.header_passed = true →
      (srixLoadFold st (List.replicate n ("[00] 11223344".toList))).blocks_loaded =
        st.blocks_loaded + n ∧
      (∀ j, SRIX_BLOCK_SIZE ≤ j →
        (srixLoadFold st (List.replicate n ("[00] 11223344".toList))).dump j = st.dump j) := by
    intro n
    induction n with
    | zero =>
      intro st hst
      exact ⟨rfl, fun j hj => rfl⟩
    | succ n ih =>
      intro st hst
      rw [List.replicate_succ, srixLoadFold_cons,
        show lcTrim ("[00] 11223344".toList) = lcTrim (srixBlockLine dupDumpFn 0) from
          by decide,
        srixLoad_block_line st dupDumpFn 0 (by decide) hst (by decide)]
      obtain ⟨i1, i2⟩ := ih
        { st with
          dump := fun j =>
            if 0 * SRIX_BLOCK_SIZE ≤ j ∧ j < 0 * SRIX_BLOCK_SIZE + SRIX_BLOCK_SIZE then
              dupDumpFn j else st.dump j,
          blocks_loaded := st.blocks_loaded + 1 }
        hst
      refine ⟨?_, ?_⟩
      · rw [i1]
        show st.blocks_loaded + 1 + n = st.blocks_loaded + (n + 1)
        omega
      · intro j hj
        rw [i2 j hj]
        show (if 0 * SRIX_BLOCK_SIZE ≤ j ∧ j < 0 * SRIX_BLOCK_SIZE + SRIX_BLOCK_SIZE then
            dupDumpFn j else st.dump j) = st.dump j
        rw [if_neg (by
          have hS : SRIX_BLOCK_SIZE = 4 := rfl
          rw [hS] at hj ⊢
          omega)]
  have hmark : srixLoadFold srixInitState dupBlockFile =
      srixLoadFold { srixInitState with header_passed := true }
        (List.replicate SRIX_BLOCK_COUNT ("[00] 11223344".toList)) := by
    unfold dupBlockFile
    rw [srixLoadFold_cons, srixLoad_data_marker _ rfl]
  obtain ⟨c1, c2⟩ := hrep SRIX_BLOCK_COUNT { srixInitState with header_passed := true } rfl
  have hbl : (srixLoadFold srixInitState dupBlockFile).blocks_loaded = SRIX_BLOCK_COUNT := by
    rw [hmark, c1]
    rfl
  unfold load_file_headless
  rw [hbl, if_neg (by omega)]
  refine ⟨rfl, rfl, ?_, ?_⟩
  · intro j hj
    show (srixLoadFold srixInitState dupBlockFile).dump j = 0
    rw [hmark, c2 j hj]
    rfl
  · intro l hl
    unfold dupBlockFile at hl
    rcases List.mem_cons.mp hl with h | h
    · exact Or.inl h
    · have hrepl := List.eq_of_mem_replicate h
      rw [hrepl]
      right
      decide

/-- Witness for page_line_format on the sample 1K state, page 3. -/
theorem page_line_format_witness :
    (3 : Nat) < sampleState.blocks_read ∧
    (∀ i, i < 16 → sampleState.dump (3 * 16 + i) < 256) ∧
    (pageLine 3 (blockBytes sampleState 3) ∈ writeFileFormat sampleState ∧
      pageLine 3 (blockBytes sampleState 3) =
        "Page ".toList ++ decChars 3 ++ ": ".toList ++
          joinSpaceSep ((blockBytes sampleState 3).map byteHex) ∧
      (joinSpaceSep ((blockBytes sampleState 3).map byteHex)).length = 47 ∧
      ((joinSpaceSep ((blockBytes sampleState 3).map byteHex)).filter
        (fun c => c != ' ')).length = 32 ∧
      ∀ c ∈ joinSpaceSep ((blockBytes sampleState 3).map byteHex),
        c = ' ' ∨ (hexCharVal c).isSome = true) :=
  ⟨by decide, fun i hi => by simp [sampleState],
    page_line_format sampleState 3 (by decide) (fun i hi => by simp [sampleState])⟩

end NfcEngine
